import Mathlib

/-!
NMEA-0183 decoder of `Core/Src/gps.c` (cfeng-dev/gps_nucleo_h7).

A shallow embedding of the receive state machine (`GPS_UART_CallBack`), the checksum
validator (`GPS_validate`), the sentence parser (`GPS_parse`) and the unit converters
(`GPS_nmea_to_dec`, `GPS_ConvertTime`, `GPS_ConvertDate`), followed by theorems about them.

Conventions of the embedding.

* A `char`/`uint8_t` cell is a `Byte = Fin 256`: `char` is unsigned on the ARM target of the
  firmware, so a byte read through `char *` promotes to an `int` in `0..255`.
* A `char *` argument is the list of the cells that start at the pointer.  Every cell after
  the end of the list reads as `0`, so every list denotes a NUL-terminated string; a list may
  itself hold a `0`, which is then where the C string ends.
* `float` values are exact rationals: rounding is not modelled and there are no infinities
  or NaNs.  `int` values are integers in the 32-bit range; the casts and operators on them
  follow C (truncation toward zero for `(int)`, `/` and `%`), with a saturating cast and
  wrapping arithmetic where C leaves the result undefined.
* Global variables (`rx_buffer`, `rx_index`, `GPS`) are threaded explicitly as state, and the
  compile-time constant `GPS_TIMEZONE_OFFSET` is passed as the parameter `tz`.  The memory
  that follows `rx_buffer` is not fixed by the source; it is a parameter of every call.
-/

namespace GPS

/-! ## Bytes and strings -/

/-- An 8-bit cell (`char`, `uint8_t`). -/
abbrev Byte := Fin 256

/-- The read `p[i]` through a `char *` whose cells are `s`. -/
def byteAt (s : List Byte) (i : Nat) : Byte := s.getD i 0

/-- The cells of a string literal (without its terminating NUL). -/
def bytes (s : String) : List Byte := s.toList.map (fun c => Fin.ofNat c.toNat)

/-- The C string stored at a pointer: the cells before the first NUL. -/
def cstr (s : List Byte) : List Byte := s.takeWhile (fun b => b ≠ 0)

/-! ## `GPS_validate` -/

/-- The `while` loop of `GPS_validate` (gps.c:111-114), started at index `i` with
accumulator `acc`; it returns the final `(i, calculated_check)`.  The first argument bounds
the number of iterations; the loop exits on its own condition once `i` reaches 75. -/
def validateLoop (nmeastr : List Byte) : Nat → Nat → Nat → Nat × Nat
  | 0, i, acc => (i, acc)
  | fuel + 1, i, acc =>
    if byteAt nmeastr i ≠ 0 ∧ byteAt nmeastr i ≠ 42 ∧ i < 75 then
      validateLoop nmeastr fuel (i + 1) (acc ^^^ (byteAt nmeastr i).val)
    else (i, acc)

/-- C library: the characters written by `sprintf(buf, "%02X", n)` for `0 ≤ n`: the
hexadecimal digits of `n` in upper case, padded with `'0'` to a width of two. -/
def sprintf_02X (n : Nat) : List Nat :=
  let ds := (Nat.toDigits 16 n).map (fun c => c.toUpper.toNat)
  List.replicate (2 - ds.length) 48 ++ ds

/-- `int GPS_validate(char *nmeastr)` (gps.c:95-132). -/
def GPS_validate (nmeastr : List Byte) : Int :=
  if byteAt nmeastr 0 ≠ 36 then 0
  else
    let r := validateLoop nmeastr 75 1 0
    let i := r.1
    let calculated_check := r.2
    if i ≥ 75 then 0
    else if byteAt nmeastr i = 42 then
      let check0 := byteAt nmeastr (i + 1)
      let check1 := byteAt nmeastr (i + 2)
      let checkcalcstr := sprintf_02X calculated_check
      if checkcalcstr.getD 0 0 = check0.val ∧ checkcalcstr.getD 1 0 = check1.val then 1 else 0
    else 0

/-! ## The shared record and the unit converters -/

/-- `GPS_t` (gps.h:26-68), fields in declaration order. -/
structure GPS_t where
  dec_longitude : ℚ
  dec_latitude : ℚ
  altitude_ft : ℚ
  nmea_longitude : ℚ
  nmea_latitude : ℚ
  utc_time : ℚ
  ns : Byte
  ew : Byte
  lock : Int
  satelites : Int
  hdop : ℚ
  msl_altitude : ℚ
  msl_units : Byte
  rmc_status : Byte
  speed_k : ℚ
  course_d : ℚ
  date : Int
  course_t : ℚ
  course_t_unit : Byte
  course_m : ℚ
  course_m_unit : Byte
  speed_k_unit : Byte
  speed_km : ℚ
  speed_km_unit : Byte
  hours : Int
  minutes : Int
  seconds : Int
  day : Int
  month : Int
  year : Int
deriving DecidableEq

/-- The zero-initialised record (`GPS_t GPS;` at file scope). -/
def GPS_zero : GPS_t :=
  { dec_longitude := 0, dec_latitude := 0, altitude_ft := 0, nmea_longitude := 0,
    nmea_latitude := 0, utc_time := 0, ns := 0, ew := 0, lock := 0, satelites := 0,
    hdop := 0, msl_altitude := 0, msl_units := 0, rmc_status := 0, speed_k := 0,
    course_d := 0, date := 0, course_t := 0, course_t_unit := 0, course_m := 0,
    course_m_unit := 0, speed_k_unit := 0, speed_km := 0, speed_km_unit := 0,
    hours := 0, minutes := 0, seconds := 0, day := 0, month := 0, year := 0 }

/-- `#define GPSBUFSIZE 128` (gps.h:22). -/
def GPSBUFSIZE : Nat := 128

/-- `#define GPS_TIMEZONE_OFFSET 1` (gps.h:23). -/
def GPS_TIMEZONE_OFFSET : Int := 1

/-- The least value of a 32-bit `int`. -/
def INT_MIN : Int := -2147483648

/-- The greatest value of a 32-bit `int`. -/
def INT_MAX : Int := 2147483647

/-- The value of an `int` expression whose mathematical result is `n`: reduction modulo
`2^32` into `INT_MIN..INT_MAX`.  (Signed overflow is undefined in C; the ARM target wraps.) -/
def wrapInt (n : Int) : Int := (n + 2147483648) % 4294967296 - 2147483648

/-- The cast `(int)x` of a `float`: truncation toward zero, into a 32-bit `int`.  (Outside
`INT_MIN..INT_MAX` the cast is undefined in C; the conversion instruction of the ARM target
saturates.) -/
def castInt (x : ℚ) : Int := max INT_MIN (min (Int.tdiv x.num x.den) INT_MAX)

/-- `float GPS_nmea_to_dec(float deg_coord, char nsew)` (gps.c:171-180). -/
def GPS_nmea_to_dec (deg_coord : ℚ) (nsew : Byte) : ℚ :=
  let degree : Int := castInt (deg_coord / 100)
  let minutes : ℚ := deg_coord - ((wrapInt (degree * 100) : Int) : ℚ)
  let dec_deg : ℚ := minutes / 60
  let decimal : ℚ := (degree : ℚ) + dec_deg
  if nsew = 83 ∨ nsew = 87 then decimal * (-1) else decimal

/-- `void GPS_ConvertTime(float utc_time, int *hours, int *minutes, int *seconds)`
(gps.c:189-203); the result is the triple written through the three pointers and `tz` is
the value of `GPS_TIMEZONE_OFFSET`. -/
def GPS_ConvertTime (tz : Int) (utc_time : ℚ) : Int × Int × Int :=
  let hours : Int := castInt (utc_time / 10000)
  let minutes : Int := Int.tmod (castInt (utc_time / 100)) 100
  let seconds : Int := Int.tmod (castInt utc_time) 100
  let hours := wrapInt (hours + tz)
  let hours := if hours ≥ 24 then hours - 24 else if hours < 0 then hours + 24 else hours
  (hours, minutes, seconds)

/-- `void GPS_ConvertDate(int date, int *day, int *month, int *year)` (gps.c:212-216); the
result is the triple written through the three pointers. -/
def GPS_ConvertDate (date : Int) : Int × Int × Int :=
  (Int.tdiv date 10000, Int.tmod (Int.tdiv date 100) 100, Int.tmod date 100 + 2000)

/-! ## C library models: `strncmp` and `sscanf` -/

/-- C library: `strncmp(a, b, n)`, the difference of the first pair of differing cells among
the first `n`, the comparison stopping after a NUL; `0` when there is none. -/
def strncmp (a b : List Byte) : Nat → Int
  | 0 => 0
  | n + 1 =>
    if byteAt a 0 ≠ byteAt b 0 then ((byteAt a 0).val : Int) - ((byteAt b 0).val : Int)
    else if byteAt a 0 = 0 then 0
    else strncmp a.tail b.tail n

/-- C library: `isspace` in the "C" locale. -/
def isspace (b : Byte) : Bool := b.val = 32 || (9 ≤ b.val && b.val ≤ 13)

/-- C library: `isdigit`. -/
def isdigit (b : Byte) : Bool := 48 ≤ b.val && b.val ≤ 57

/-- The value of a run of decimal digits. -/
def digitsVal (ds : List Byte) : Nat := ds.foldl (fun a b => 10 * a + (b.val - 48)) 0

/-- An optional sign: whether it is `'-'`, and the input after it. -/
def scanSign (inp : List Byte) : Bool × List Byte :=
  match inp with
  | b :: r => if b = 45 then (true, r) else if b = 43 then (false, r) else (false, inp)
  | [] => (false, inp)

/-- An optional exponent part `e`/`E`, optional sign, digits; it is taken only when it has
at least one digit (as `strtod` and newlib do; the input is left untouched otherwise). -/
def scanExponent (inp : List Byte) : Int × List Byte :=
  match inp with
  | e :: r =>
    if e = 101 ∨ e = 69 then
      let sg := scanSign r
      let ds := sg.2.span isdigit
      if ds.1.isEmpty then (0, inp)
      else (if sg.1 then -(digitsVal ds.1 : Int) else (digitsVal ds.1 : Int), ds.2)
    else (0, inp)
  | [] => (0, inp)

/-- The rational `m * 10 ^ e`. -/
def decimal (m : Nat) (e : Int) : ℚ :=
  if 0 ≤ e then ((m * 10 ^ e.toNat : Nat) : ℚ) else mkRat m (10 ^ (-e).toNat)

/-- The conversion `%f` on input without leading white space: optional sign, decimal digits
with an optional point (at least one digit), optional exponent.  `none` is a matching
failure.  Infinities, NaNs and hexadecimal floats have no rational value; their spellings are
not numbers here. -/
def scanFloat (inp : List Byte) : Option (ℚ × List Byte) :=
  let sg := scanSign inp
  let ip := sg.2.span isdigit
  let fp : List Byte × List Byte :=
    match ip.2 with
    | b :: r => if b = 46 then r.span isdigit else ([], ip.2)
    | [] => ([], ip.2)
  if ip.1.isEmpty ∧ fp.1.isEmpty then none
  else
    let ex := scanExponent fp.2
    let q := decimal (digitsVal (ip.1 ++ fp.1)) (ex.1 - fp.1.length)
    some (if sg.1 then -q else q, ex.2)

/-- The conversion `%d` on input without leading white space: optional sign and at least one
decimal digit.  A value outside the range of `int` saturates, as newlib's `strtol` does (the C
standard leaves that case undefined). -/
def scanInt (inp : List Byte) : Option (Int × List Byte) :=
  let sg := scanSign inp
  let ds := sg.2.span isdigit
  if ds.1.isEmpty then none
  else
    let v : Int := if sg.1 then -(digitsVal ds.1 : Int) else (digitsVal ds.1 : Int)
    some (max (-2147483648) (min v 2147483647), ds.2)

/-- The directives of the format strings used by `GPS_parse`. -/
inductive Directive
  | lit (c : Byte)
  | float
  | char
  | int
  | skipNot (c : Byte)
deriving DecidableEq

/-- Reading of a format string: `%f`, `%c`, `%d`, the suppressed scanset `%*[^x]`, and
ordinary characters. -/
def parseFormat : List Char → List Directive
  | '%' :: 'f' :: r => Directive.float :: parseFormat r
  | '%' :: 'c' :: r => Directive.char :: parseFormat r
  | '%' :: 'd' :: r => Directive.int :: parseFormat r
  | '%' :: '*' :: '[' :: '^' :: x :: ']' :: r =>
    Directive.skipNot (Fin.ofNat x.toNat) :: parseFormat r
  | c :: r => Directive.lit (Fin.ofNat c.toNat) :: parseFormat r
  | [] => []

/-- A value stored by `sscanf` through one of its pointer arguments. -/
inductive Val
  | f (q : ℚ)
  | c (b : Byte)
  | d (n : Int)
deriving DecidableEq

/-- The run of `sscanf` over the directives: whether it ended in an input failure (end of the
string reached where a character was needed), and the values assigned, in order.  `%f` and
`%d` skip leading white space, `%c` and the scanset do not. -/
def scanItems : List Directive → List Byte → Bool × List Val
  | [], _ => (false, [])
  | Directive.lit c :: fmt, inp =>
    match inp with
    | [] => (true, [])
    | b :: r => if b = c then scanItems fmt r else (false, [])
  | Directive.float :: fmt, inp =>
    match inp.dropWhile isspace with
    | [] => (true, [])
    | b :: r =>
      match scanFloat (b :: r) with
      | none => (false, [])
      | some (q, rest) => ((scanItems fmt rest).1, Val.f q :: (scanItems fmt rest).2)
  | Directive.char :: fmt, inp =>
    match inp with
    | [] => (true, [])
    | b :: r => ((scanItems fmt r).1, Val.c b :: (scanItems fmt r).2)
  | Directive.int :: fmt, inp =>
    match inp.dropWhile isspace with
    | [] => (true, [])
    | b :: r =>
      match scanInt (b :: r) with
      | none => (false, [])
      | some (n, rest) => ((scanItems fmt rest).1, Val.d n :: (scanItems fmt rest).2)
  | Directive.skipNot c :: fmt, inp =>
    match inp with
    | [] => (true, [])
    | b :: r => if b = c then (false, []) else scanItems fmt ((b :: r).dropWhile (fun x => x ≠ c))

/-- What a call of `sscanf` does: its return value and the values it stored. -/
structure ScanResult where
  ret : Int
  vals : List Val
deriving DecidableEq

/-- C library: `sscanf(str, format, ...)`.  The return value is the number of items
assigned, or `EOF = -1` when the string ends before the first item is assigned. -/
def sscanf (str : List Byte) (format : String) : ScanResult :=
  let r := scanItems (parseFormat format.toList) (cstr str)
  { ret := if r.1 ∧ r.2 = [] then -1 else (r.2.length : Int), vals := r.2 }

/-! ## `GPS_parse` -/

/-- A pointer argument of `sscanf`: the address of a `float`, `char` or `int` member of the
record, given by the assignment through it. -/
inductive Ptr
  | float (set : GPS_t → ℚ → GPS_t)
  | char (set : GPS_t → Byte → GPS_t)
  | int (set : GPS_t → Int → GPS_t)

/-- The assignment `*p = v` made by `sscanf` for a converted item. -/
def Ptr.store : Ptr → Val → GPS_t → GPS_t
  | Ptr.float set, Val.f q, g => set g q
  | Ptr.char set, Val.c b, g => set g b
  | Ptr.int set, Val.d n, g => set g n
  | _, _, g => g

/-- The assignments of a call of `sscanf`: the k-th stored value goes through the k-th
pointer argument. -/
def storeArgs : List Ptr → List Val → GPS_t → GPS_t
  | p :: ps, v :: vs, g => storeArgs ps vs (p.store v g)
  | _, _, g => g

/-- The pointer arguments `&GPS.utc_time, &GPS.nmea_latitude, &GPS.ns, &GPS.nmea_longitude,
&GPS.ew, &GPS.lock, &GPS.satelites, &GPS.hdop, &GPS.msl_altitude, &GPS.msl_units`
(gps.c:148). -/
def args_GNGGA : List Ptr :=
  [Ptr.float (fun g v => { g with utc_time := v }),
   Ptr.float (fun g v => { g with nmea_latitude := v }),
   Ptr.char (fun g v => { g with ns := v }),
   Ptr.float (fun g v => { g with nmea_longitude := v }),
   Ptr.char (fun g v => { g with ew := v }),
   Ptr.int (fun g v => { g with lock := v }),
   Ptr.int (fun g v => { g with satelites := v }),
   Ptr.float (fun g v => { g with hdop := v }),
   Ptr.float (fun g v => { g with msl_altitude := v }),
   Ptr.char (fun g v => { g with msl_units := v })]

/-- The pointer arguments `&GPS.utc_time, &GPS.rmc_status, &GPS.nmea_latitude, &GPS.ns,
&GPS.nmea_longitude, &GPS.ew, &GPS.speed_k, &GPS.course_d, &GPS.date` (gps.c:157). -/
def args_GNRMC : List Ptr :=
  [Ptr.float (fun g v => { g with utc_time := v }),
   Ptr.char (fun g v => { g with rmc_status := v }),
   Ptr.float (fun g v => { g with nmea_latitude := v }),
   Ptr.char (fun g v => { g with ns := v }),
   Ptr.float (fun g v => { g with nmea_longitude := v }),
   Ptr.char (fun g v => { g with ew := v }),
   Ptr.float (fun g v => { g with speed_k := v }),
   Ptr.float (fun g v => { g with course_d := v }),
   Ptr.int (fun g v => { g with date := v })]

/-- The pointer arguments `&GPS.course_t, &GPS.course_t_unit, &GPS.course_m_unit,
&GPS.speed_k, &GPS.speed_k_unit, &GPS.speed_km, &GPS.speed_km_unit` (gps.c:165). -/
def args_GNVTG : List Ptr :=
  [Ptr.float (fun g v => { g with course_t := v }),
   Ptr.char (fun g v => { g with course_t_unit := v }),
   Ptr.char (fun g v => { g with course_m_unit := v }),
   Ptr.float (fun g v => { g with speed_k := v }),
   Ptr.char (fun g v => { g with speed_k_unit := v }),
   Ptr.float (fun g v => { g with speed_km := v }),
   Ptr.char (fun g v => { g with speed_km_unit := v })]

/-- The format string of the `$GNGGA` branch (gps.c:148). -/
def fmt_GNGGA : String := "$GNGGA,%f,%f,%c,%f,%c,%d,%d,%f,%f,%c"

/-- The format string of the `$GNRMC` branch (gps.c:157). -/
def fmt_GNRMC : String := "$GNRMC,%f,%c,%f,%c,%f,%c,%f,%f,%d"

/-- The format string of the `$GNVTG` branch (gps.c:165). -/
def fmt_GNVTG : String := "$GNVTG,%f,%c,%*[^,],%c,%f,%c,%f,%c"

/-- `void GPS_parse(char *GPSstrParse)` (gps.c:146-169): the record after the call, from the
record `GPS` before it. -/
def GPS_parse (tz : Int) (GPS : GPS_t) (GPSstrParse : List Byte) : GPS_t :=
  if strncmp GPSstrParse (bytes "$GNGGA") 6 = 0 then
    let r := sscanf GPSstrParse fmt_GNGGA
    let GPS := storeArgs args_GNGGA r.vals GPS
    if r.ret ≥ 1 then
      let GPS := { GPS with dec_latitude := GPS_nmea_to_dec GPS.nmea_latitude GPS.ns }
      let GPS := { GPS with dec_longitude := GPS_nmea_to_dec GPS.nmea_longitude GPS.ew }
      let t := GPS_ConvertTime tz GPS.utc_time
      { GPS with hours := t.1, minutes := t.2.1, seconds := t.2.2 }
    else GPS
  else if strncmp GPSstrParse (bytes "$GNRMC") 6 = 0 then
    let r := sscanf GPSstrParse fmt_GNRMC
    let GPS := storeArgs args_GNRMC r.vals GPS
    if r.ret ≥ 1 then
      let t := GPS_ConvertTime tz GPS.utc_time
      let GPS := { GPS with hours := t.1, minutes := t.2.1, seconds := t.2.2 }
      let d := GPS_ConvertDate GPS.date
      { GPS with day := d.1, month := d.2.1, year := d.2.2 }
    else GPS
  else if strncmp GPSstrParse (bytes "$GNVTG") 6 = 0 then
    let r := sscanf GPSstrParse fmt_GNVTG
    storeArgs args_GNVTG r.vals GPS
  else GPS

/-! ## The receive state machine -/

/-- The globals of gps.c: `rx_buffer`, `rx_index` and the record `GPS`.  (`rx_data`, the byte
delivered by the UART, is the argument of a call.) -/
structure State where
  rx_buffer : List Byte
  rx_index : Nat
  GPS : GPS_t
deriving DecidableEq

/-- The reset assembler around a record: cursor 0 and an all-zero buffer. -/
def State.reset (R : GPS_t) : State :=
  { rx_buffer := List.replicate GPSBUFSIZE 0, rx_index := 0, GPS := R }

/-- The element store `rx_buffer[rx_index++] = rx_data` of one call of `GPS_UART_CallBack`
(gps.c:68), when the call executes it: the index stored at and the value of `rx_index + 1`
before its reduction to 8 bits. -/
def storeOf (st : State) (rx_data : Byte) : Option (Nat × Nat) :=
  if rx_data ≠ 10 ∧ st.rx_index < GPSBUFSIZE then some (st.rx_index, st.rx_index + 1) else none

/-- `void GPS_UART_CallBack()` (gps.c:66-82) with `rx_data` holding the received byte: the
globals after the call.  `GPS_DEBUG` is 0, and re-arming the UART changes no global.
`(char*)rx_buffer` points at the 128 cells of the array followed by `after`, the cells that
follow the array in memory at the time of the call: the string that `GPS_validate` and
`GPS_parse` read ends inside the array only if the array holds a NUL. -/
def GPS_UART_CallBack (tz : Int) (after : List Byte) (st : State) (rx_data : Byte) : State :=
  if rx_data ≠ 10 ∧ st.rx_index < GPSBUFSIZE then
    { st with rx_buffer := st.rx_buffer.set st.rx_index rx_data,
              rx_index := (st.rx_index + 1) % 256 }
  else
    let str := st.rx_buffer ++ after
    let GPS := if GPS_validate str ≠ 0 then GPS_parse tz st.GPS str else st.GPS
    { rx_buffer := List.replicate GPSBUFSIZE 0, rx_index := 0, GPS := GPS }

/-- The bytes of a stream delivered one per call, in arrival order; `mem n` is the memory
that follows `rx_buffer` at the time of the n-th call (counted from 0). -/
def feed (tz : Int) (mem : Nat → List Byte) (st : State) : List Byte → State
  | [] => st
  | b :: bs => feed tz (fun n => mem (n + 1)) (GPS_UART_CallBack tz (mem 0) st b) bs

/-! ## Notions used to state the properties -/

/-- The character code of the upper-case hexadecimal digit of value `d < 16`:
`'0'..'9'`, `'A'..'F'`. -/
def hexUpper (d : Nat) : Nat := if d < 10 then 48 + d else 55 + d

/-- XOR of the values of a run of bytes, continuing from `acc`. -/
def xorFrom (acc : Nat) (l : List Byte) : Nat := l.foldl (fun a b => a ^^^ b.val) acc

/-- The checksum of a sentence whose `'*'` is at index `k`: the XOR of the bytes at the
indices `1..k-1`. -/
def checksum (s : List Byte) (k : Nat) : Nat := xorFrom 0 ((s.drop 1).take (k - 1))

/-- A lower-case hexadecimal letter `'a'..'f'`. -/
def isLowerHexLetter (b : Byte) : Prop := 97 ≤ b.val ∧ b.val ≤ 102

/-- The index `k` is where the scan of `GPS_validate` stops on `'*'`: `s[k] = '*'`, with
neither a NUL nor a `'*'` at the indices `1..k-1`. -/
def IsDelimiter (s : List Byte) (k : Nat) : Prop :=
  1 ≤ k ∧ byteAt s k = 42 ∧ ∀ j, 1 ≤ j → j < k → byteAt s j ≠ 0 ∧ byteAt s j ≠ 42

/-- The byte stream of a sequence of lines, each followed by `'\n'`. -/
def streamOfLines : List (List Byte) → List Byte
  | [] => []
  | l :: ls => l ++ 10 :: streamOfLines ls

/-- The step of the record for one received line: parsed when it validates, unchanged
otherwise. -/
def lineStep (tz : Int) (R : GPS_t) (l : List Byte) : GPS_t :=
  if GPS_validate l = 1 then GPS_parse tz R l else R

/-- The three types of item that the formats of `GPS_parse` convert. -/
inductive Kind
  | f
  | c
  | d
deriving DecidableEq

/-- The type of a stored value. -/
def Val.kind : Val → Kind
  | Val.f _ => Kind.f
  | Val.c _ => Kind.c
  | Val.d _ => Kind.d

/-- The type of the item a directive assigns, if it assigns one. -/
def Directive.kind : Directive → Option Kind
  | Directive.float => some Kind.f
  | Directive.char => some Kind.c
  | Directive.int => some Kind.d
  | _ => none

/-- The types of the items a format assigns, in order. -/
def convKinds (fmt : List Directive) : List Kind := fmt.filterMap Directive.kind

/-- The value of a `float` member after `sscanf`: the item `v` if one was converted for it,
the previous value `old` otherwise. -/
def newFloat (v : Option Val) (old : ℚ) : ℚ :=
  match v with
  | some (Val.f q) => q
  | _ => old

/-- The value of a `char` member after `sscanf`: the item `v` if one was converted for it,
the previous value `old` otherwise. -/
def newChar (v : Option Val) (old : Byte) : Byte :=
  match v with
  | some (Val.c b) => b
  | _ => old

/-- The value of an `int` member after `sscanf`: the item `v` if one was converted for it,
the previous value `old` otherwise. -/
def newInt (v : Option Val) (old : Int) : Int :=
  match v with
  | some (Val.d n) => n
  | _ => old

/-- The `$GNGGA` line of the end-to-end example, with the checksum characters `47`. -/
def line_GNGGA_47 : List Byte :=
  bytes "$GNGGA,123519,4807.038,N,01131.000,E,1,08,0.9,545.4,M*47"

/-- The same line with the checksum characters `01`, the XOR of its payload. -/
def line_GNGGA_01 : List Byte :=
  bytes "$GNGGA,123519,4807.038,N,01131.000,E,1,08,0.9,545.4,M*01"

/-- The record `X` with the fields that a `$GNGGA` sentence may write set back to their
values in `R`: `restore_GNGGA R X = R` says that `X` differs from `R` at most in `utc_time`,
`nmea_latitude`, `ns`, `nmea_longitude`, `ew`, `lock`, `satelites`, `hdop`, `msl_altitude`,
`msl_units`, `dec_latitude`, `dec_longitude`, `hours`, `minutes`, `seconds`. -/
def restore_GNGGA (R X : GPS_t) : GPS_t :=
  { X with
    utc_time := R.utc_time, nmea_latitude := R.nmea_latitude, ns := R.ns,
    nmea_longitude := R.nmea_longitude, ew := R.ew, lock := R.lock,
    satelites := R.satelites, hdop := R.hdop, msl_altitude := R.msl_altitude,
    msl_units := R.msl_units, dec_latitude := R.dec_latitude,
    dec_longitude := R.dec_longitude, hours := R.hours, minutes := R.minutes,
    seconds := R.seconds }

/-- The record `X` with the fields that a `$GNRMC` sentence may write set back to their
values in `R`: `utc_time`, `rmc_status`, `nmea_latitude`, `ns`, `nmea_longitude`, `ew`,
`speed_k`, `course_d`, `date`, `hours`, `minutes`, `seconds`, `day`, `month`, `year`. -/
def restore_GNRMC (R X : GPS_t) : GPS_t :=
  { X with
    utc_time := R.utc_time, rmc_status := R.rmc_status, nmea_latitude := R.nmea_latitude,
    ns := R.ns, nmea_longitude := R.nmea_longitude, ew := R.ew, speed_k := R.speed_k,
    course_d := R.course_d, date := R.date, hours := R.hours, minutes := R.minutes,
    seconds := R.seconds, day := R.day, month := R.month, year := R.year }

/-- The record `X` with the fields that a `$GNVTG` sentence may write set back to their
values in `R`: `course_t`, `course_t_unit`, `course_m_unit`, `speed_k`, `speed_k_unit`,
`speed_km`, `speed_km_unit`. -/
def restore_GNVTG (R X : GPS_t) : GPS_t :=
  { X with
    course_t := R.course_t, course_t_unit := R.course_t_unit,
    course_m_unit := R.course_m_unit, speed_k := R.speed_k,
    speed_k_unit := R.speed_k_unit, speed_km := R.speed_km,
    speed_km_unit := R.speed_km_unit }

/-- A `$GNRMC` sentence with all nine fields, UTC time 23:59:59 on 31-12-99. -/
def line_GNRMC : List Byte :=
  bytes "$GNRMC,235959,A,4807.038,N,01131.000,E,022.4,084.4,311299*0D"

/-- The converted time of a record is `GPS_ConvertTime` of its stored raw `utc_time`. -/
def TimeDerived (tz : Int) (R : GPS_t) : Prop :=
  (R.hours, R.minutes, R.seconds) = GPS_ConvertTime tz R.utc_time

/-- The converted date of a record is `GPS_ConvertDate` of its stored raw `date`. -/
def DateDerived (R : GPS_t) : Prop :=
  (R.day, R.month, R.year) = GPS_ConvertDate R.date

/-- The decimal position of a record is `GPS_nmea_to_dec` of its stored raw coordinates. -/
def PositionDerived (R : GPS_t) : Prop :=
  R.dec_latitude = GPS_nmea_to_dec R.nmea_latitude R.ns ∧
  R.dec_longitude = GPS_nmea_to_dec R.nmea_longitude R.ew

/-- The target fields of the `$GNGGA` call in `X`, from the record `R` before the call and
the values `vals` that `sscanf` converted: the k-th target field holds the k-th value when
there is one and its value in `R` otherwise. -/
def RawFields_GNGGA (R X : GPS_t) (vals : List Val) : Prop :=
  X.utc_time = newFloat vals[0]? R.utc_time ∧
  X.nmea_latitude = newFloat vals[1]? R.nmea_latitude ∧
  X.ns = newChar vals[2]? R.ns ∧
  X.nmea_longitude = newFloat vals[3]? R.nmea_longitude ∧
  X.ew = newChar vals[4]? R.ew ∧
  X.lock = newInt vals[5]? R.lock ∧
  X.satelites = newInt vals[6]? R.satelites ∧
  X.hdop = newFloat vals[7]? R.hdop ∧
  X.msl_altitude = newFloat vals[8]? R.msl_altitude ∧
  X.msl_units = newChar vals[9]? R.msl_units

/-- The target fields of the `$GNRMC` call in `X`, from the record `R` before the call and
the values `vals` that `sscanf` converted. -/
def RawFields_GNRMC (R X : GPS_t) (vals : List Val) : Prop :=
  X.utc_time = newFloat vals[0]? R.utc_time ∧
  X.rmc_status = newChar vals[1]? R.rmc_status ∧
  X.nmea_latitude = newFloat vals[2]? R.nmea_latitude ∧
  X.ns = newChar vals[3]? R.ns ∧
  X.nmea_longitude = newFloat vals[4]? R.nmea_longitude ∧
  X.ew = newChar vals[5]? R.ew ∧
  X.speed_k = newFloat vals[6]? R.speed_k ∧
  X.course_d = newFloat vals[7]? R.course_d ∧
  X.date = newInt vals[8]? R.date

/-- The target fields of the `$GNVTG` call in `X`, from the record `R` before the call and
the values `vals` that `sscanf` converted. -/
def RawFields_GNVTG (R X : GPS_t) (vals : List Val) : Prop :=
  X.course_t = newFloat vals[0]? R.course_t ∧
  X.course_t_unit = newChar vals[1]? R.course_t_unit ∧
  X.course_m_unit = newChar vals[2]? R.course_m_unit ∧
  X.speed_k = newFloat vals[3]? R.speed_k ∧
  X.speed_k_unit = newChar vals[4]? R.speed_k_unit ∧
  X.speed_km = newFloat vals[5]? R.speed_km ∧
  X.speed_km_unit = newChar vals[6]? R.speed_km_unit

/-- A `$GNRMC` sentence whose third field is empty, with a date in its ninth field. -/
def line_GNRMC_partial : List Byte := bytes "$GNRMC,123519,V,,,,,,,230394*2D"

/-- A sentence of 77 characters: `'$'`, 73 times `'A'`, and `"*41"` (the XOR of an odd
number of `'A'` is `0x41`). -/
def line_long : List Byte := (36 :: List.replicate 73 65) ++ bytes "*41"

/-- A line of 128 bytes without NUL and `'\n'` that `GPS_validate` accepts: a `$GNVTG`
sentence with its `'*'` at index 12, whose third field runs over `"*44"` and 104 further
`'A'` to the next comma, and which ends `",M,2,N,9,"`. -/
def line_overflow : List Byte :=
  bytes "$GNVTG,1,T,A*44" ++ List.replicate 104 65 ++ bytes ",M,2,N,9,"

/-! ## The validator: lemmas -/

set_option maxRecDepth 100000 in
theorem sprintf_02X_byte : ∀ n < 256, sprintf_02X n = [hexUpper (n / 16), hexUpper (n % 16)] := by
  decide

theorem xorFrom_lt (l : List Byte) : ∀ acc, acc < 256 → xorFrom acc l < 256 := by
  induction l with
  | nil => intro acc h; simpa [xorFrom] using h
  | cons b l ih =>
    intro acc h
    have hb : b.val < 2 ^ 8 := b.isLt
    have : acc ^^^ b.val < 2 ^ 8 := Nat.xor_lt_two_pow h hb
    simpa [xorFrom] using ih _ this

theorem byteAt_ne_zero_lt {s : List Byte} {i : Nat} (h : byteAt s i ≠ 0) : i < s.length := by
  by_contra hc
  apply h
  simp [byteAt, List.getElem?_eq_none (Nat.le_of_not_lt hc)]

theorem drop_take_succ (s : List Byte) (i n : Nat) (h : i < s.length) :
    (s.drop i).take (n + 1) = byteAt s i :: (s.drop (i + 1)).take n := by
  have hb : byteAt s i = s[i] := by simp [byteAt, List.getElem?_eq_getElem h]
  rw [List.drop_eq_getElem_cons h, List.take_succ_cons, hb]

theorem validateLoop_spec (s : List Byte) :
    ∀ fuel i acc, 75 - i ≤ fuel →
      i ≤ (validateLoop s fuel i acc).1 ∧
      (∀ j, i ≤ j → j < (validateLoop s fuel i acc).1 → byteAt s j ≠ 0 ∧ byteAt s j ≠ 42) ∧
      (byteAt s (validateLoop s fuel i acc).1 = 0 ∨ byteAt s (validateLoop s fuel i acc).1 = 42 ∨
        75 ≤ (validateLoop s fuel i acc).1) ∧
      (validateLoop s fuel i acc).2 =
        xorFrom acc ((s.drop i).take ((validateLoop s fuel i acc).1 - i)) := by
  intro fuel
  induction fuel with
  | zero =>
    intro i acc h
    simp only [validateLoop]
    refine ⟨le_refl _, ?_, ?_, ?_⟩
    · intro j h1 h2; omega
    · right; right; omega
    · simp [xorFrom]
  | succ fuel ih =>
    intro i acc h
    simp only [validateLoop]
    split
    · rename_i hc
      obtain ⟨h0, h42, hlt⟩ := hc
      have hf : 75 - (i + 1) ≤ fuel := by omega
      obtain ⟨a1, a2, a3, a4⟩ := ih (i + 1) (acc ^^^ (byteAt s i).val) hf
      refine ⟨by omega, ?_, a3, ?_⟩
      · intro j h1 h2
        by_cases hj : j = i
        · subst hj; exact ⟨h0, h42⟩
        · exact a2 j (by omega) h2
      · rw [a4]
        have hlen := byteAt_ne_zero_lt h0
        have : (validateLoop s fuel (i + 1) (acc ^^^ (byteAt s i).val)).1 - i =
            ((validateLoop s fuel (i + 1) (acc ^^^ (byteAt s i).val)).1 - (i + 1)) + 1 := by omega
        rw [this, drop_take_succ s i _ hlen]
        simp [xorFrom]
    · rename_i hc
      refine ⟨le_refl _, ?_, ?_, ?_⟩
      · intro j h1 h2; omega
      · by_contra hcon
        push_neg at hcon
        exact hc ⟨hcon.1, hcon.2.1, hcon.2.2⟩
      · simp [xorFrom]

theorem validate_cases (s : List Byte) :
    (GPS_validate s = 1 ∨ GPS_validate s = 0) ∧
    (GPS_validate s = 1 ↔
      byteAt s 0 = 36 ∧ (validateLoop s 75 1 0).1 < 75 ∧
      byteAt s (validateLoop s 75 1 0).1 = 42 ∧
      (sprintf_02X (validateLoop s 75 1 0).2).getD 0 0 =
        (byteAt s ((validateLoop s 75 1 0).1 + 1)).val ∧
      (sprintf_02X (validateLoop s 75 1 0).2).getD 1 0 =
        (byteAt s ((validateLoop s 75 1 0).1 + 2)).val) := by
  unfold GPS_validate
  dsimp only
  split_ifs with h0 h1 h2 h3
  · exact ⟨Or.inr rfl, fun h => absurd h (by decide), fun h => absurd h.1 h0⟩
  · exact ⟨Or.inr rfl, fun h => absurd h (by decide), fun h => absurd h1 (by omega)⟩
  · exact ⟨Or.inl rfl, fun _ => ⟨not_not.mp h0, by omega, h2, h3.1, h3.2⟩, fun _ => rfl⟩
  · exact ⟨Or.inr rfl, fun h => absurd h (by decide),
      fun h => absurd ⟨h.2.2.2.1, h.2.2.2.2⟩ h3⟩
  · exact ⟨Or.inr rfl, fun h => absurd h (by decide), fun h => absurd h.2.2.1 h2⟩

/-- The index where the scan stops on `'*'` is unique. -/
theorem IsDelimiter_unique {s : List Byte} {k k' : Nat} (h : IsDelimiter s k)
    (h' : IsDelimiter s k') : k = k' := by
  obtain ⟨a1, a2, a3⟩ := h
  obtain ⟨b1, b2, b3⟩ := h'
  rcases Nat.lt_trichotomy k k' with hlt | heq | hgt
  · exact absurd a2 (b3 k a1 hlt).2
  · exact heq
  · exact absurd b2 (a3 k' b1 hgt).2

theorem validateLoop_delimiter {s : List Byte} {k : Nat} (h : IsDelimiter s k) (hk : k ≤ 74) :
    (validateLoop s 75 1 0).1 = k ∧ (validateLoop s 75 1 0).2 = checksum s k := by
  obtain ⟨a1, a2, a3, a4⟩ := validateLoop_spec s 75 1 0 (by omega)
  obtain ⟨b1, b2, b3⟩ := h
  have hi : (validateLoop s 75 1 0).1 = k := by
    rcases Nat.lt_trichotomy (validateLoop s 75 1 0).1 k with hlt | heq | hgt
    · have := b3 _ a1 hlt
      rcases a3 with c | c | c
      · exact absurd c this.1
      · exact absurd c this.2
      · omega
    · exact heq
    · exact absurd b2 (a2 k b1 hgt).2
  refine ⟨hi, ?_⟩
  rw [a4, hi]
  rfl

theorem validate_eq_one_iff (s : List Byte) :
    GPS_validate s = 1 ↔
      byteAt s 0 = 36 ∧ ∃ k, k ≤ 74 ∧ IsDelimiter s k ∧
        (byteAt s (k + 1)).val = hexUpper (checksum s k / 16) ∧
        (byteAt s (k + 2)).val = hexUpper (checksum s k % 16) := by
  rw [(validate_cases s).2]
  obtain ⟨a1, a2, a3, a4⟩ := validateLoop_spec s 75 1 0 (by omega)
  have hlt : (validateLoop s 75 1 0).2 < 256 := by
    rw [a4]; exact xorFrom_lt _ _ (by omega)
  have hs := sprintf_02X_byte _ hlt
  constructor
  · rintro ⟨h0, h1, h2, h3, h4⟩
    have hd : IsDelimiter s (validateLoop s 75 1 0).1 := ⟨a1, h2, a2⟩
    have hc := (validateLoop_delimiter hd (by omega)).2
    refine ⟨h0, _, by omega, hd, ?_, ?_⟩
    · rw [← h3, hs, hc]; rfl
    · rw [← h4, hs, hc]; rfl
  · rintro ⟨h0, k, hk, hd, h3, h4⟩
    obtain ⟨hi, hc⟩ := validateLoop_delimiter hd hk
    rw [hs, hi, hc]
    exact ⟨h0, by omega, hd.2.1, by rw [h3]; rfl, by rw [h4]; rfl⟩

theorem byteAt_set (s : List Byte) (j : Nat) (b : Byte) (m : Nat) (hj : j < s.length) :
    byteAt (s.set j b) m = if m = j then b else byteAt s m := by
  unfold byteAt
  simp only [List.getD_eq_getElem?_getD, List.getElem?_set]
  by_cases h : j = m
  · subst h; simp [hj]
  · have h' : ¬ m = j := fun e => h e.symm
    simp [h, h']

theorem xorFrom_append (acc : Nat) (l1 l2 : List Byte) :
    xorFrom acc (l1 ++ l2) = xorFrom (xorFrom acc l1) l2 := by
  simp [xorFrom, List.foldl_append]

theorem xorFrom_inj (l : List Byte) : ∀ a a', xorFrom a l = xorFrom a' l → a = a' := by
  induction l with
  | nil => intro a a' h; simpa [xorFrom] using h
  | cons b l ih =>
    intro a a' h
    have := ih _ _ (by simpa [xorFrom] using h)
    exact Nat.xor_left_inj.mp this

theorem xorFrom_set_ne (l : List Byte) (i : Nat) (b : Byte) (acc : Nat) (hi : i < l.length)
    (hb : b ≠ l[i]) : xorFrom acc (l.set i b) ≠ xorFrom acc l := by
  intro h
  have e1 : l.set i b = l.take i ++ b :: l.drop (i + 1) := by
    rw [List.set_eq_take_append_cons_drop, if_pos hi]
  have e2 : l = l.take i ++ l[i] :: l.drop (i + 1) := by
    rw [List.getElem_cons_drop, List.take_append_drop]
  rw [e1] at h
  conv at h => rhs; rw [e2]
  rw [xorFrom_append, xorFrom_append] at h
  have h2 := xorFrom_inj (l.drop (i + 1)) _ _ h
  have h3 := Nat.xor_right_inj.mp h2
  exact hb (Fin.ext h3)

theorem hexUpper_inj {a b : Nat} (ha : a < 16) (hb : b < 16) (h : hexUpper a = hexUpper b) :
    a = b := by
  unfold hexUpper at h
  split_ifs at h <;> omega

theorem checksum_lt (s : List Byte) (k : Nat) : checksum s k < 256 :=
  xorFrom_lt _ _ (by omega)

/-- Replacing a payload byte by a different byte other than `'*'` makes an accepted
sentence rejected. -/
theorem validate_set_reject (s : List Byte) (k j : Nat) (b : Byte)
    (hv : GPS_validate s = 1) (hd : IsDelimiter s k) (hj1 : 1 ≤ j) (hjk : j < k)
    (hb : b ≠ byteAt s j) (hstar : b ≠ 42) : GPS_validate (s.set j b) = 0 := by
  rcases (validate_cases (s.set j b)).1 with h1 | h0
  swap
  · exact h0
  exfalso
  obtain ⟨-, k0, -, hd0, e1, e2⟩ := (validate_eq_one_iff s).mp hv
  have hk0 := IsDelimiter_unique hd0 hd
  subst hk0
  obtain ⟨-, k', -, hd', e1', e2'⟩ := (validate_eq_one_iff _).mp h1
  have hjlen : j < s.length := byteAt_ne_zero_lt (hd.2.2 j hj1 hjk).1
  have hset := byteAt_set s j b
  by_cases hb0 : b = 0
  · -- the scan now ends on the NUL at `j`
    obtain ⟨c1, c2, c3⟩ := hd'
    rcases Nat.lt_trichotomy k' j with hlt | heq | hgt
    · rw [hset k' hjlen, if_neg (by omega)] at c2
      exact (hd.2.2 k' c1 (by omega)).2 c2
    · rw [heq, hset j hjlen, if_pos rfl] at c2
      exact hstar c2
    · have := (c3 j hj1 hgt).1
      rw [hset j hjlen, if_pos rfl] at this
      exact this hb0
  · have hdk : IsDelimiter (s.set j b) k0 := by
      refine ⟨hd.1, ?_, ?_⟩
      · rw [hset k0 hjlen, if_neg (by omega)]; exact hd.2.1
      · intro m hm1 hm2
        rw [hset m hjlen]
        split_ifs
        · exact ⟨hb0, hstar⟩
        · exact hd.2.2 m hm1 hm2
    have hk := IsDelimiter_unique hd' hdk
    subst hk
    rw [hset _ hjlen, if_neg (by omega)] at e1' e2'
    rw [e1] at e1'
    rw [e2] at e2'
    have l1 := checksum_lt s k'
    have l2 := checksum_lt (s.set j b) k'
    have q1 := hexUpper_inj (by omega) (by omega) e1'
    have q2 := hexUpper_inj (Nat.mod_lt _ (by omega)) (Nat.mod_lt _ (by omega)) e2'
    have heq : checksum (s.set j b) k' = checksum s k' := by omega
    -- but the two checksums differ
    have hpay : ((s.set j b).drop 1).take (k' - 1) = ((s.drop 1).take (k' - 1)).set (j - 1) b := by
      rw [List.drop_set, if_neg (by omega), List.set_take]
    have hlen : j - 1 < ((s.drop 1).take (k' - 1)).length := by
      simp only [List.length_take, List.length_drop]
      omega
    have hget : ((s.drop 1).take (k' - 1))[j - 1] = byteAt s j := by
      simp only [List.getElem_take, List.getElem_drop, byteAt, List.getD_eq_getElem?_getD]
      have : 1 + (j - 1) = j := by omega
      simp [this, List.getElem?_eq_getElem hjlen]
    unfold checksum at heq
    rw [hpay] at heq
    exact xorFrom_set_ne _ _ b 0 hlen (by rw [hget]; exact hb) heq

/-! ## C1: the contract of `GPS_validate` -/

/-- C1: `GPS_validate s` returns 1 exactly when `s[0] = '$'` and some index `k` with
`1 ≤ k ≤ 74` holds a `'*'`, no byte at the indices `1..k-1` is NUL or `'*'`, and `s[k+1]`,
`s[k+2]` are the high and the low upper-case hexadecimal digit of the XOR of the bytes
`s[1..k-1]` (a value below 256); in every other case it returns 0.  In particular a sentence
without leading `'$'`, a sentence with no `'*'` at the indices `1..74`, and a sentence one of
whose checksum characters is a lower-case hexadecimal letter are rejected. -/
theorem C1_validate_contract (s : List Byte) :
    (GPS_validate s = 1 ↔
      byteAt s 0 = 36 ∧ ∃ k, 1 ≤ k ∧ k ≤ 74 ∧ byteAt s k = 42 ∧
        (∀ j, 1 ≤ j → j < k → byteAt s j ≠ 0 ∧ byteAt s j ≠ 42) ∧
        (byteAt s (k + 1)).val = hexUpper (checksum s k / 16) ∧
        (byteAt s (k + 2)).val = hexUpper (checksum s k % 16)) ∧
    (∀ k, checksum s k < 256) ∧
    (GPS_validate s ≠ 1 → GPS_validate s = 0) ∧
    (byteAt s 0 ≠ 36 → GPS_validate s = 0) ∧
    ((∀ k, 1 ≤ k → k ≤ 74 → byteAt s k ≠ 42) → GPS_validate s = 0) ∧
    (∀ k, IsDelimiter s k →
      isLowerHexLetter (byteAt s (k + 1)) ∨ isLowerHexLetter (byteAt s (k + 2)) →
      GPS_validate s = 0) := by
  have hiff := validate_eq_one_iff s
  have hzero : GPS_validate s ≠ 1 → GPS_validate s = 0 := fun h =>
    (validate_cases s).1.resolve_left h
  refine ⟨?_, checksum_lt s, hzero, ?_, ?_, ?_⟩
  · rw [hiff]
    constructor
    · rintro ⟨h0, k, hk, ⟨h1, h2, h3⟩, h4, h5⟩
      exact ⟨h0, k, h1, hk, h2, h3, h4, h5⟩
    · rintro ⟨h0, k, h1, hk, h2, h3, h4, h5⟩
      exact ⟨h0, k, hk, ⟨h1, h2, h3⟩, h4, h5⟩
  · intro h
    exact hzero fun h1 => h (hiff.mp h1).1
  · intro h
    apply hzero
    intro h1
    obtain ⟨-, k, hk, hd, -⟩ := hiff.mp h1
    exact h k hd.1 hk hd.2.1
  · intro k hd hlow
    apply hzero
    intro h1
    obtain ⟨-, k', -, hd', e1, e2⟩ := hiff.mp h1
    have hk := IsDelimiter_unique hd' hd
    subst hk
    have hc := checksum_lt s k'
    have m1 : checksum s k' / 16 < 16 := by omega
    have m2 : checksum s k' % 16 < 16 := Nat.mod_lt _ (by omega)
    unfold isLowerHexLetter at hlow
    unfold hexUpper at e1 e2
    rcases hlow with hl | hl
    · split_ifs at e1 <;> omega
    · split_ifs at e2 <;> omega

/-! ## C4: corrupting one data byte -/

/-- C4, as stated, fails: `"$A00*41"` is accepted, and putting `'*'` in place of the data
byte `'A'` at index 1 (strictly between the `'$'` and the `'*'` at index 4) gives
`"$*00*41"`, which is accepted too, the scan now stopping at index 1 with checksum `00`. -/
theorem C4_counterexample :
    GPS_validate (bytes "$A00*41") = 1 ∧ IsDelimiter (bytes "$A00*41") 4 ∧
    (1 ≤ 1 ∧ 1 < 4) ∧ (42 : Byte) ≠ byteAt (bytes "$A00*41") 1 ∧
    (bytes "$A00*41").set 1 42 = bytes "$*00*41" ∧
    GPS_validate ((bytes "$A00*41").set 1 42) = 1 := by
  refine ⟨by decide, ⟨by decide, by decide, ?_⟩, by decide, by decide, by decide, by decide⟩
  intro j h1 h2
  interval_cases j <;> decide

/-- C4, amended: for every sentence `s` accepted by `GPS_validate`, with `k` the index of
its `'*'` delimiter, and every index `j` with `1 ≤ j < k`, replacing `s[j]` by any different
byte value other than `'*'` yields a sentence on which `GPS_validate` returns 0. -/
theorem C4_corrupt_data_byte_rejected (s : List Byte) (k j : Nat) (b : Byte)
    (hv : GPS_validate s = 1) (hd : IsDelimiter s k) (hj1 : 1 ≤ j) (hjk : j < k)
    (hb : b ≠ byteAt s j) (hstar : b ≠ 42) : GPS_validate (s.set j b) = 0 :=
  validate_set_reject s k j b hv hd hj1 hjk hb hstar

/-- Witness for C4 (amended): `"$A00*41"` with the `'A'` at index 1 replaced by `'B'`. -/
theorem C4_corrupt_data_byte_rejected_witness :
    GPS_validate (bytes "$A00*41") = 1 ∧ IsDelimiter (bytes "$A00*41") 4 ∧
    (66 : Byte) ≠ byteAt (bytes "$A00*41") 1 ∧ (66 : Byte) ≠ 42 ∧
    GPS_validate ((bytes "$A00*41").set 1 66) = 0 :=
  have hd : IsDelimiter (bytes "$A00*41") 4 :=
    ⟨by decide, by decide, fun j h1 h2 => by interval_cases j <;> decide⟩
  ⟨by decide, hd, by decide, by decide,
    C4_corrupt_data_byte_rejected (bytes "$A00*41") 4 1 66 (by decide) hd (by decide)
      (by decide) (by decide) (by decide)⟩

/-! ## The frame assembler: C2 and C3 -/

theorem validateLoop_congr {s s' : List Byte} (h : ∀ i, byteAt s i = byteAt s' i) :
    ∀ fuel i acc, validateLoop s fuel i acc = validateLoop s' fuel i acc := by
  intro fuel
  induction fuel with
  | zero => intro i acc; rfl
  | succ fuel ih => intro i acc; simp only [validateLoop, h, ih]

theorem GPS_validate_congr {s s' : List Byte} (h : ∀ i, byteAt s i = byteAt s' i) :
    GPS_validate s = GPS_validate s' := by
  simp only [GPS_validate, h, validateLoop_congr h]

theorem byteAt_tail (s : List Byte) (i : Nat) : byteAt s.tail i = byteAt s (i + 1) := by
  cases s <;> simp [byteAt]

theorem strncmp_congr : ∀ (n : Nat) (a a' b : List Byte), (∀ i, byteAt a i = byteAt a' i) →
    strncmp a b n = strncmp a' b n := by
  intro n
  induction n with
  | zero => intro a a' b _; rfl
  | succ n ih =>
    intro a a' b h
    have ht : ∀ i, byteAt a.tail i = byteAt a'.tail i := fun i => by
      rw [byteAt_tail, byteAt_tail, h]
    simp only [strncmp, h 0, ih a.tail a'.tail b.tail ht]

theorem byteAt_append_zeros (l : List Byte) (n i : Nat) :
    byteAt (l ++ List.replicate n 0) i = byteAt l i := by
  unfold byteAt
  simp only [List.getD_eq_getElem?_getD]
  by_cases h : i < l.length
  · rw [List.getElem?_append_left h]
  · have h' : l.length ≤ i := Nat.le_of_not_lt h
    rw [List.getElem?_append_right h', List.getElem?_eq_none h']
    by_cases h2 : i - l.length < n
    · simp [List.getElem?_replicate, h2]
    · simp [List.getElem?_replicate, h2]

theorem cstr_append_zeros (l : List Byte) (n : Nat) : cstr (l ++ List.replicate n 0) = cstr l := by
  unfold cstr
  induction l with
  | nil =>
    cases n with
    | zero => rfl
    | succ n => simp [List.replicate_succ, List.takeWhile_cons]
  | cons b l ih =>
    simp only [List.cons_append, List.takeWhile_cons]
    split
    · rw [ih]
    · rfl

theorem GPS_validate_append_zeros (l : List Byte) (n : Nat) :
    GPS_validate (l ++ List.replicate n 0) = GPS_validate l :=
  GPS_validate_congr (byteAt_append_zeros l n)

theorem GPS_parse_append_zeros (tz : Int) (R : GPS_t) (l : List Byte) (n : Nat) :
    GPS_parse tz R (l ++ List.replicate n 0) = GPS_parse tz R l := by
  simp only [GPS_parse, sscanf, cstr_append_zeros,
    strncmp_congr 6 _ _ _ (byteAt_append_zeros l n)]

theorem set_append_zeros (p : List Byte) (n : Nat) (b : Byte) :
    (p ++ List.replicate (n + 1) 0).set p.length b = (p ++ [b]) ++ List.replicate n 0 := by
  induction p with
  | nil => simp [List.replicate_succ]
  | cons a p ih => simpa using ih

theorem validate_eq_of_iff {s s' : List Byte}
    (h : GPS_validate s = 1 ↔ GPS_validate s' = 1) : GPS_validate s = GPS_validate s' := by
  rcases (validate_cases s).1 with a | a <;> rcases (validate_cases s').1 with b | b
  · rw [a, b]
  · have := h.mp a; rw [b] at this; exact absurd this (by decide)
  · have := h.mpr b; rw [a] at this; exact absurd this (by decide)
  · rw [a, b]

theorem validateLoop_congr_upto {s s' : List Byte} (h : ∀ i, i ≤ 76 → byteAt s i = byteAt s' i) :
    ∀ fuel i acc, validateLoop s fuel i acc = validateLoop s' fuel i acc := by
  intro fuel
  induction fuel with
  | zero => intro i acc; rfl
  | succ fuel ih =>
    intro i acc
    simp only [validateLoop]
    by_cases hi : i < 75
    · rw [h i (by omega), ih]
    · rw [if_neg (fun c => hi c.2.2), if_neg (fun c => hi c.2.2)]

/-- The result of `GPS_validate` depends on the cells `0..76` only. -/
theorem GPS_validate_congr_upto {s s' : List Byte}
    (h : ∀ i, i ≤ 76 → byteAt s i = byteAt s' i) : GPS_validate s = GPS_validate s' := by
  apply validate_eq_of_iff
  rw [(validate_cases s).2, (validate_cases s').2, validateLoop_congr_upto h, h 0 (by omega)]
  constructor
  · rintro ⟨h0, h1, h2, h3, h4⟩
    refine ⟨h0, h1, ?_, ?_, ?_⟩
    · rw [← h _ (by omega)]; exact h2
    · rw [← h _ (by omega)]; exact h3
    · rw [← h _ (by omega)]; exact h4
  · rintro ⟨h0, h1, h2, h3, h4⟩
    refine ⟨h0, h1, ?_, ?_, ?_⟩
    · rw [h _ (by omega)]; exact h2
    · rw [h _ (by omega)]; exact h3
    · rw [h _ (by omega)]; exact h4

theorem byteAt_append_left (s t : List Byte) (i : Nat) (h : i < s.length) :
    byteAt (s ++ t) i = byteAt s i := by
  unfold byteAt
  simp only [List.getD_eq_getElem?_getD]
  rw [List.getElem?_append_left h]

/-- `GPS_validate` on a pointer to an array of 128 cells reads inside the array only. -/
theorem GPS_validate_array (buf after : List Byte) (h : buf.length = 128) :
    GPS_validate (buf ++ after) = GPS_validate buf :=
  GPS_validate_congr_upto (fun i hi => byteAt_append_left buf after i (by omega))

/-- `strncmp` reads its first argument up to the first NUL only. -/
theorem strncmp_cstr : ∀ (n : Nat) (a b : List Byte), strncmp a b n = strncmp (cstr a) b n := by
  intro n
  induction n with
  | zero => intro a b; rfl
  | succ n ih =>
    intro a b
    cases a with
    | nil => rfl
    | cons x a =>
      by_cases hx : x = 0
      · subst hx
        have hc : cstr ((0 : Byte) :: a) = [] := by simp [cstr]
        rw [hc]
        simp [strncmp, byteAt]
      · have hc : cstr (x :: a) = x :: cstr a := by simp [cstr, hx]
        rw [hc]
        simp only [strncmp, byteAt, List.getD_cons_zero, List.tail_cons]
        rw [ih a b.tail]

/-- `GPS_parse` reads its argument as a C string: up to the first NUL only. -/
theorem GPS_parse_cstr (tz : Int) (R : GPS_t) {s s' : List Byte} (h : cstr s = cstr s') :
    GPS_parse tz R s = GPS_parse tz R s' := by
  have e : ∀ b, strncmp s b 6 = strncmp s' b 6 := fun b => by
    rw [strncmp_cstr 6 s, strncmp_cstr 6 s', h]
  simp only [GPS_parse, sscanf, h, e]

theorem cstr_append_nul (l rest : List Byte) : cstr (l ++ 0 :: rest) = cstr l := by
  unfold cstr
  induction l with
  | nil => simp [List.takeWhile_cons]
  | cons b l ih =>
    simp only [List.cons_append, List.takeWhile_cons]
    split
    · rw [ih]
    · rfl

theorem cstr_append_of_mem (l after : List Byte) (h : (0 : Byte) ∈ l) :
    cstr (l ++ after) = cstr l := by
  obtain ⟨p, q, rfl⟩ := List.append_of_mem h
  rw [List.append_assoc, List.cons_append, cstr_append_nul, cstr_append_nul]

/-- A buffer that holds fewer than 128 accumulated bytes, then zeros: the string at the
pointer is the string of the accumulated bytes, whatever follows the array. -/
theorem terminated_buffer (tz : Int) (l after : List Byte) (hlen : l.length < 128) :
    cstr ((l ++ List.replicate (128 - l.length) 0) ++ after) = cstr l ∧
    GPS_validate ((l ++ List.replicate (128 - l.length) 0) ++ after) = GPS_validate l ∧
    ∀ G : GPS_t, GPS_parse tz G ((l ++ List.replicate (128 - l.length) 0) ++ after) =
      GPS_parse tz G l := by
  have hc : cstr ((l ++ List.replicate (128 - l.length) 0) ++ after) = cstr l := by
    have e : 128 - l.length = (127 - l.length) + 1 := by omega
    rw [e, List.replicate_succ, List.append_assoc, List.cons_append, cstr_append_nul]
  refine ⟨hc, ?_, fun G => GPS_parse_cstr tz G hc⟩
  rw [GPS_validate_array _ after (by simp; omega), GPS_validate_append_zeros]

theorem feed_append (tz : Int) (a b : List Byte) :
    ∀ (mem : Nat → List Byte) (st : State),
      feed tz mem st (a ++ b) = feed tz (fun n => mem (n + a.length)) (feed tz mem st a) b := by
  induction a with
  | nil => intro mem st; rfl
  | cons x a ih =>
    intro mem st
    show feed tz (fun n => mem (n + 1)) (GPS_UART_CallBack tz (mem 0) st x) (a ++ b) =
      feed tz (fun n => mem (n + (a.length + 1)))
        (feed tz (fun n => mem (n + 1)) (GPS_UART_CallBack tz (mem 0) st x) a) b
    rw [ih]
    rfl

/-- Accumulation: bytes other than `'\n'` that fit are appended to the buffer. -/
theorem feed_accumulate (tz : Int) (R : GPS_t) (l : List Byte) (hnl : (10 : Byte) ∉ l) :
    ∀ (mem : Nat → List Byte) (p : List Byte), p.length + l.length ≤ GPSBUFSIZE →
      feed tz mem { rx_buffer := p ++ List.replicate (GPSBUFSIZE - p.length) 0,
                    rx_index := p.length, GPS := R } l =
        { rx_buffer := (p ++ l) ++ List.replicate (GPSBUFSIZE - (p.length + l.length)) 0,
          rx_index := p.length + l.length, GPS := R } := by
  induction l with
  | nil => intro mem p _; simp [feed]
  | cons b l ih =>
    intro mem p hlen
    have hb : b ≠ 10 := fun e => hnl (by simp [e])
    have hnl' : (10 : Byte) ∉ l := fun e => hnl (List.mem_cons_of_mem _ e)
    simp only [List.length_cons] at hlen
    have hlt : p.length < GPSBUFSIZE := by omega
    have hstep : GPS_UART_CallBack tz (mem 0)
        { rx_buffer := p ++ List.replicate (GPSBUFSIZE - p.length) 0,
          rx_index := p.length, GPS := R } b =
        { rx_buffer := (p ++ [b]) ++ List.replicate (GPSBUFSIZE - (p ++ [b]).length) 0,
          rx_index := (p ++ [b]).length, GPS := R } := by
      have e1 : GPSBUFSIZE - p.length = (GPSBUFSIZE - (p ++ [b]).length) + 1 := by
        simp only [List.length_append, List.length_singleton]; omega
      have e2 : (p.length + 1) % 256 = p.length + 1 := by
        unfold GPSBUFSIZE at hlt; omega
      simp only [GPS_UART_CallBack]
      rw [if_pos ⟨hb, hlt⟩, e1, set_append_zeros, e2]
      simp
    have := ih hnl' (fun n => mem (n + 1)) (p ++ [b])
      (by simp only [List.length_append, List.length_singleton]; omega)
    simp only [feed]
    rw [hstep, this]
    simp [Nat.add_assoc, Nat.add_comm 1]

/-- The flush of a buffer that holds a line of fewer than 128 bytes. -/
theorem callback_flush (tz : Int) (after : List Byte) (R : GPS_t) (l : List Byte)
    (hlen : l.length < GPSBUFSIZE) :
    GPS_UART_CallBack tz after
        { rx_buffer := l ++ List.replicate (GPSBUFSIZE - l.length) 0,
          rx_index := l.length, GPS := R } 10 =
      State.reset (lineStep tz R l) := by
  unfold GPSBUFSIZE at hlen
  obtain ⟨-, hv, hp⟩ := terminated_buffer tz l after hlen
  simp only [GPS_UART_CallBack, State.reset, lineStep, GPSBUFSIZE]
  rw [if_neg (fun c => c.1 rfl)]
  simp only [hv, hp]
  rcases (validate_cases l).1 with h1 | h1 <;> simp [h1]

/-- One whole line from the reset assembler. -/
theorem feed_line (tz : Int) (mem : Nat → List Byte) (R : GPS_t) (l : List Byte)
    (hnl : (10 : Byte) ∉ l) (hlen : l.length < GPSBUFSIZE) :
    feed tz mem (State.reset R) (l ++ [10]) = State.reset (lineStep tz R l) := by
  have h := feed_accumulate tz R l hnl mem [] (by simpa using Nat.le_of_lt hlen)
  simp only [List.length_nil, Nat.sub_zero, List.nil_append, Nat.zero_add] at h
  have h0 : State.reset R =
      { rx_buffer := List.replicate GPSBUFSIZE 0, rx_index := 0, GPS := R } := rfl
  rw [feed_append, h0, h]
  simp only [feed]
  exact callback_flush tz _ R l hlen

theorem feed_lines (tz : Int) (lines : List (List Byte))
    (h : ∀ l ∈ lines, (10 : Byte) ∉ l ∧ l.length < GPSBUFSIZE) :
    ∀ (mem : Nat → List Byte) (R : GPS_t), feed tz mem (State.reset R) (streamOfLines lines) =
      State.reset (lines.foldl (lineStep tz) R) := by
  induction lines with
  | nil => intro mem R; rfl
  | cons l ls ih =>
    intro mem R
    have hl := h l (List.mem_cons_self _ _)
    have hls : ∀ l' ∈ ls, (10 : Byte) ∉ l' ∧ l'.length < GPSBUFSIZE := fun l' hl' =>
      h l' (List.mem_cons_of_mem _ hl')
    have e : streamOfLines (l :: ls) = (l ++ [10]) ++ streamOfLines ls := by
      simp [streamOfLines]
    rw [e, feed_append, feed_line tz mem R l hl.1 hl.2, ih hls]
    rfl

/-- The cursor stays within the buffer capacity. -/
theorem feed_index_le (tz : Int) (stream : List Byte) :
    ∀ (mem : Nat → List Byte) (st : State),
      st.rx_index ≤ GPSBUFSIZE → st.rx_buffer.length = GPSBUFSIZE →
      (feed tz mem st stream).rx_index ≤ GPSBUFSIZE ∧
      (feed tz mem st stream).rx_buffer.length = GPSBUFSIZE := by
  induction stream with
  | nil => intro mem st h1 h2; exact ⟨h1, h2⟩
  | cons b bs ih =>
    intro mem st h1 h2
    simp only [feed]
    apply ih
    · simp only [GPS_UART_CallBack]
      split
      · rename_i hc
        have := hc.2
        unfold GPSBUFSIZE at this ⊢
        show (st.rx_index + 1) % 256 ≤ 128
        omega
      · show 0 ≤ GPSBUFSIZE
        omega
    · simp only [GPS_UART_CallBack]
      split
      · simpa using h2
      · simp

/-- C2: from the reset assembler and any record `R`, feeding through `GPS_UART_CallBack`,
one byte per call, the bytes of the lines `l1..ln`, each followed by `'\n'`, where no line
contains `'\n'` and every line has fewer than 128 bytes, ends in the reset assembler
(`rx_index = 0`, `rx_buffer` all zero) with the record equal to the left fold over the lines,
in arrival order, of the step `R ↦ GPS_parse(R, l)` if `GPS_validate(l) = 1` and `R ↦ R`
otherwise, whatever memory follows the buffer.  The same holds after each of the lines
(every initial segment of them), so the buffer is cleared after every line whether or not it
validated. -/
theorem C2_lines_processed_in_order (tz : Int) (mem : Nat → List Byte) (R : GPS_t)
    (lines : List (List Byte)) (h : ∀ l ∈ lines, (10 : Byte) ∉ l ∧ l.length < 128) :
    feed tz mem { rx_buffer := List.replicate 128 0, rx_index := 0, GPS := R }
        (streamOfLines lines) =
      { rx_buffer := List.replicate 128 0, rx_index := 0,
        GPS := lines.foldl
          (fun G l => if GPS_validate l = 1 then GPS_parse tz G l else G) R } ∧
    ∀ n, feed tz mem { rx_buffer := List.replicate 128 0, rx_index := 0, GPS := R }
        (streamOfLines (lines.take n)) =
      { rx_buffer := List.replicate 128 0, rx_index := 0,
        GPS := (lines.take n).foldl
          (fun G l => if GPS_validate l = 1 then GPS_parse tz G l else G) R } := by
  refine ⟨feed_lines tz lines h mem R, fun n => feed_lines tz (lines.take n) ?_ mem R⟩
  intro l hl
  exact h l (List.mem_of_mem_take hl)

/-- Witness for C2: an accepted `$GNGGA` line followed by a line that does not validate, with
the cell `0x80` after the buffer. -/
theorem C2_lines_processed_in_order_witness :
    (∀ l ∈ [bytes "$GNGGA,123519,4807.038,N,01131.000,E,1,08,0.9,545.4,M*01", bytes "noise"],
      (10 : Byte) ∉ l ∧ l.length < 128) ∧
    feed 1 (fun _ => [128]) { rx_buffer := List.replicate 128 0, rx_index := 0, GPS := GPS_zero }
        (streamOfLines
          [bytes "$GNGGA,123519,4807.038,N,01131.000,E,1,08,0.9,545.4,M*01", bytes "noise"]) =
      { rx_buffer := List.replicate 128 0, rx_index := 0,
        GPS := [bytes "$GNGGA,123519,4807.038,N,01131.000,E,1,08,0.9,545.4,M*01",
            bytes "noise"].foldl
          (fun G l => if GPS_validate l = 1 then GPS_parse 1 G l else G) GPS_zero } :=
  ⟨by decide,
    (C2_lines_processed_in_order 1 (fun _ => [128]) GPS_zero
      [bytes "$GNGGA,123519,4807.038,N,01131.000,E,1,08,0.9,545.4,M*01", bytes "noise"]
      (by decide)).1⟩

/-- C3: for every sequence of bytes fed one at a time to `GPS_UART_CallBack` from the initial
state (`rx_index = 0`, zeroed buffer, any record), with or without `'\n'` in it, the state
`st` reached satisfies `rx_index ≤ 128` (and the buffer keeps its 128 cells); and in the next
call, with any byte `b`, an element store into `rx_buffer`, when made, is made at an index
`i < GPSBUFSIZE = 128` inside the buffer, the incremented cursor `c = rx_index + 1` is below
256, so its reduction to 8 bits does not wrap, and the call leaves `rx_index = c ≤ 128`; a
call that makes no element store leaves `rx_index = 0`. -/
theorem C3_cursor_within_buffer (tz : Int) (mem : Nat → List Byte) (after : List Byte)
    (R : GPS_t) (stream : List Byte) (b : Byte) :
    (feed tz mem (State.reset R) stream).rx_index ≤ 128 ∧
    (feed tz mem (State.reset R) stream).rx_buffer.length = 128 ∧
    (∀ i c, storeOf (feed tz mem (State.reset R) stream) b = some (i, c) →
      i < GPSBUFSIZE ∧ i < (feed tz mem (State.reset R) stream).rx_buffer.length ∧
      c < 256 ∧ c ≤ 128 ∧
      (GPS_UART_CallBack tz after (feed tz mem (State.reset R) stream) b).rx_index = c ∧
      (GPS_UART_CallBack tz after (feed tz mem (State.reset R) stream) b).rx_buffer =
        (feed tz mem (State.reset R) stream).rx_buffer.set i b) ∧
    (storeOf (feed tz mem (State.reset R) stream) b = none →
      (GPS_UART_CallBack tz after (feed tz mem (State.reset R) stream) b).rx_index = 0 ∧
      (GPS_UART_CallBack tz after (feed tz mem (State.reset R) stream) b).rx_buffer =
        List.replicate 128 0) := by
  obtain ⟨h1, h2⟩ := feed_index_le tz stream mem (State.reset R) (by simp [State.reset])
    (by simp [State.reset])
  generalize feed tz mem (State.reset R) stream = st at h1 h2
  unfold GPSBUFSIZE at h1 h2
  refine ⟨h1, h2, ?_, ?_⟩
  · intro i c hs
    unfold storeOf at hs
    split at hs
    · rename_i hc
      simp only [Option.some.injEq, Prod.mk.injEq] at hs
      obtain ⟨rfl, rfl⟩ := hs
      have hlt := hc.2
      unfold GPSBUFSIZE at hlt ⊢
      refine ⟨hlt, by omega, by omega, by omega, ?_, ?_⟩
      · simp only [GPS_UART_CallBack]
        rw [if_pos hc]
        show (st.rx_index + 1) % 256 = st.rx_index + 1
        omega
      · simp only [GPS_UART_CallBack]
        rw [if_pos hc]
    · cases hs
  · intro hs
    unfold storeOf at hs
    split at hs
    · cases hs
    · rename_i hc
      simp only [GPS_UART_CallBack]
      rw [if_neg hc]
      exact ⟨rfl, rfl⟩

/-! ## The unit converters: C7, C8, C9 -/

theorem wrapInt_of_range {n : ℤ} (h0 : -2147483648 ≤ n) (h1 : n ≤ 2147483647) :
    wrapInt n = n := by
  unfold wrapInt
  omega

theorem castInt_eq {x : ℚ} {n : ℤ} (h0 : 0 ≤ x) (h1 : (n : ℚ) ≤ x) (h2 : x < n + 1)
    (hn : n ≤ 2147483647) : castInt x = n := by
  have hf : Int.tdiv x.num x.den = n := by
    rw [Int.tdiv_eq_ediv (Rat.num_nonneg.mpr h0) (Int.ofNat_nonneg _), ← Rat.floor_def,
      Int.floor_eq_iff]
    exact ⟨h1, h2⟩
  have hn0 : 0 ≤ n := by
    have : (-1 : ℚ) < n := by linarith
    have : (-1 : ℤ) < n := by exact_mod_cast this
    omega
  unfold castInt INT_MIN INT_MAX
  rw [hf]
  omega

theorem nmea_to_dec_eq (d : ℕ) (m : ℚ) (h : Byte) (hd : d ≤ 21474836) (hm0 : 0 ≤ m)
    (hm : m < 100) :
    GPS_nmea_to_dec (100 * d + m) h =
      if h = 83 ∨ h = 87 then -((d : ℚ) + m / 60) else (d : ℚ) + m / 60 := by
  have hd : (0 : ℚ) ≤ d := Nat.cast_nonneg d
  have hc : castInt ((100 * (d : ℚ) + m) / 100) = (d : ℤ) := by
    apply castInt_eq
    · positivity
    · rw [le_div_iff₀ (by norm_num)]; push_cast; linarith
    · rw [div_lt_iff₀ (by norm_num)]; push_cast; linarith
    · omega
  have hw : wrapInt ((d : ℤ) * 100) = (d : ℤ) * 100 := wrapInt_of_range (by omega) (by omega)
  unfold GPS_nmea_to_dec
  simp only [hc, hw]
  push_cast
  split_ifs <;> ring

/-- C7, as stated, fails: `int degree` and `degree*100` are 32-bit.  At `v = 100*d + m`
with `d = 42949672`, `m = 96` (that is `v = 2^32`) the product `degree*100 = 4294967200`
does not fit an `int`; it wraps to `-96`, the minutes come out as `2^32 + 96` and
`GPS_nmea_to_dec(v, 'N')` is not `d + m/60`.  The same happens from `d = 21474837` on, the
first `d` with `100*d > INT_MAX`.  No value `r` of type `int` in the place of the product
gives the minutes `v - r = 96`. -/
theorem C7_counterexample :
    ((0 : ℚ) ≤ 96 ∧ (96 : ℚ) < 100) ∧
    (100 * ((42949672 : ℕ) : ℚ) + 96 = 4294967296) ∧
    wrapInt (42949672 * 100) = -96 ∧
    GPS_nmea_to_dec (100 * ((42949672 : ℕ) : ℚ) + 96) 78 = 42949672 + (4294967296 + 96) / 60 ∧
    GPS_nmea_to_dec (100 * ((42949672 : ℕ) : ℚ) + 96) 78 ≠ ((42949672 : ℕ) : ℚ) + 96 / 60 ∧
    GPS_nmea_to_dec (100 * ((21474837 : ℕ) : ℚ) + 0) 78 ≠ ((21474837 : ℕ) : ℚ) + 0 / 60 ∧
    INT_MAX < 42949672 * 100 ∧
    (∀ r : Int, INT_MIN ≤ r → r ≤ INT_MAX → (4294967296 : ℚ) - (r : ℚ) ≠ 96) := by
  refine ⟨⟨by norm_num, by norm_num⟩, by norm_num, by decide, by decide!, by decide!,
    by decide!, by decide, ?_⟩
  intro r _ h1 h
  have e : (r : ℚ) = ((4294967200 : ℤ) : ℚ) := by push_cast; linarith
  have e2 : r = 4294967200 := by exact_mod_cast e
  unfold INT_MAX at h1
  omega

/-- C7, amended (degrees bounded so that `degree*100` fits the 32-bit `int`): in exact
(rational) arithmetic, for every coordinate value `v = 100*d + m` with `d` an integer,
`0 ≤ d ≤ 21474836`, and `0 ≤ m < 100`, and every hemisphere character `h`,
`GPS_nmea_to_dec(v, h)` is `d + m/60` when `h` is neither `'S'` nor `'W'` and
`-(d + m/60)` when `h` is `'S'` or `'W'`; hence the value for `'S'` is the negation of the
value for `'N'`, and the value for `'W'` the negation of the value for `'E'`.  Moreover
`(4807.038, 'N')` gives `48.1173` and `(1131.000, 'E')` gives `11 + 31/60`. -/
theorem C7_nmea_to_dec_exact (d : ℕ) (m : ℚ) (h : Byte) (hd : d ≤ 21474836) (hm0 : 0 ≤ m)
    (hm : m < 100) :
    (h ≠ 83 ∧ h ≠ 87 → GPS_nmea_to_dec (100 * d + m) h = d + m / 60) ∧
    (h = 83 ∨ h = 87 → GPS_nmea_to_dec (100 * d + m) h = -(d + m / 60)) ∧
    GPS_nmea_to_dec (100 * d + m) 83 = -GPS_nmea_to_dec (100 * d + m) 78 ∧
    GPS_nmea_to_dec (100 * d + m) 87 = -GPS_nmea_to_dec (100 * d + m) 69 ∧
    GPS_nmea_to_dec 4807.038 78 = 48.1173 ∧
    GPS_nmea_to_dec 1131.000 69 = 11 + 31 / 60 := by
  refine ⟨?_, ?_, ?_, ?_, by decide!, by decide!⟩
  · rintro ⟨h1, h2⟩
    rw [nmea_to_dec_eq d m h hd hm0 hm, if_neg (by simp [h1, h2])]
  · intro h1
    rw [nmea_to_dec_eq d m h hd hm0 hm, if_pos h1]
  · rw [nmea_to_dec_eq d m 83 hd hm0 hm, nmea_to_dec_eq d m 78 hd hm0 hm,
      if_pos (by decide), if_neg (by decide)]
  · rw [nmea_to_dec_eq d m 87 hd hm0 hm, nmea_to_dec_eq d m 69 hd hm0 hm,
      if_pos (by decide), if_neg (by decide)]

/-- Witness for C7: `v = 100*48 + 7.038` with hemisphere `'S'`. -/
theorem C7_nmea_to_dec_exact_witness :
    48 ≤ 21474836 ∧ (0 : ℚ) ≤ 7.038 ∧ (7.038 : ℚ) < 100 ∧
    GPS_nmea_to_dec (100 * (48 : ℕ) + 7.038) 83 = -((48 : ℕ) + 7.038 / 60) :=
  ⟨by decide, by norm_num, by norm_num,
    (C7_nmea_to_dec_exact 48 7.038 83 (by decide) (by norm_num) (by norm_num)).2.1
      (Or.inl rfl)⟩

theorem convertTime_eq (tz hh mm ss : ℤ) (f : ℚ) (hh0 : 0 ≤ hh) (hh1 : hh ≤ 23)
    (hm0 : 0 ≤ mm) (hm1 : mm ≤ 59) (hs0 : 0 ≤ ss) (hs1 : ss ≤ 59) (hf0 : 0 ≤ f) (hf1 : f < 1)
    (ht0 : -24 ≤ tz) (ht1 : tz ≤ 24) :
    GPS_ConvertTime tz (10000 * hh + 100 * mm + ss + f) = ((hh + tz) % 24, mm, ss) := by
  have q1 : (0 : ℚ) ≤ hh := by exact_mod_cast hh0
  have q3 : (0 : ℚ) ≤ mm := by exact_mod_cast hm0
  have q4 : (mm : ℚ) ≤ 59 := by exact_mod_cast hm1
  have q5 : (0 : ℚ) ≤ ss := by exact_mod_cast hs0
  have q6 : (ss : ℚ) ≤ 59 := by exact_mod_cast hs1
  have c1 : castInt ((10000 * (hh : ℚ) + 100 * mm + ss + f) / 10000) = hh := by
    apply castInt_eq
    · positivity
    · rw [le_div_iff₀ (by norm_num)]; linarith
    · rw [div_lt_iff₀ (by norm_num)]; linarith
    · omega
  have c2 : castInt ((10000 * (hh : ℚ) + 100 * mm + ss + f) / 100) = 100 * hh + mm := by
    apply castInt_eq
    · positivity
    · rw [le_div_iff₀ (by norm_num)]; push_cast; linarith
    · rw [div_lt_iff₀ (by norm_num)]; push_cast; linarith
    · omega
  have c3 : castInt (10000 * (hh : ℚ) + 100 * mm + ss + f) = 10000 * hh + 100 * mm + ss := by
    apply castInt_eq
    · positivity
    · push_cast; linarith
    · push_cast; linarith
    · omega
  have hw : wrapInt (hh + tz) = hh + tz := wrapInt_of_range (by omega) (by omega)
  unfold GPS_ConvertTime
  simp only [c1, c2, c3, hw]
  rw [Int.tmod_eq_emod (by omega) (by omega), Int.tmod_eq_emod (by omega) (by omega)]
  have e2 : (100 * hh + mm) % 100 = mm := by omega
  have e3 : (10000 * hh + 100 * mm + ss) % 100 = ss := by omega
  rw [e2, e3]
  have e1 : (if hh + tz ≥ 24 then hh + tz - 24 else if hh + tz < 0 then hh + tz + 24
      else hh + tz) = (hh + tz) % 24 := by
    split_ifs <;> omega
  rw [e1]

/-- C8: for every raw time `t = 10000*hh + 100*mm + ss + f` with integers `0 ≤ hh ≤ 23`,
`0 ≤ mm ≤ 59`, `0 ≤ ss ≤ 59` and a fraction `0 ≤ f < 1` (exact arithmetic), and every
timezone offset `tz` with `-24 ≤ tz ≤ 24`, `GPS_ConvertTime` yields `minutes = mm`,
`seconds = ss` and `hours = (hh + tz) mod 24`, so `0 ≤ hours ≤ 23`.  Moreover `123519` gives
`(12, 35, 19)` at offset 0 and `(13, 35, 19)` at offset 1 (the value of
`GPS_TIMEZONE_OFFSET`), and a raw hour 23 gives hour 0 at offset 1 and hour 1 at offset 2. -/
theorem C8_convert_time_exact (tz hh mm ss : ℤ) (f : ℚ) (hh0 : 0 ≤ hh) (hh1 : hh ≤ 23)
    (hm0 : 0 ≤ mm) (hm1 : mm ≤ 59) (hs0 : 0 ≤ ss) (hs1 : ss ≤ 59) (hf0 : 0 ≤ f) (hf1 : f < 1)
    (ht0 : -24 ≤ tz) (ht1 : tz ≤ 24) :
    GPS_ConvertTime tz (10000 * hh + 100 * mm + ss + f) = ((hh + tz) % 24, mm, ss) ∧
    0 ≤ (GPS_ConvertTime tz (10000 * hh + 100 * mm + ss + f)).1 ∧
    (GPS_ConvertTime tz (10000 * hh + 100 * mm + ss + f)).1 ≤ 23 ∧
    GPS_ConvertTime 0 123519 = (12, 35, 19) ∧
    GPS_ConvertTime 1 123519 = (13, 35, 19) ∧
    GPS_ConvertTime GPS_TIMEZONE_OFFSET 123519 = (13, 35, 19) ∧
    (GPS_ConvertTime 1 235959).1 = 0 ∧
    (GPS_ConvertTime 2 235959).1 = 1 := by
  have h := convertTime_eq tz hh mm ss f hh0 hh1 hm0 hm1 hs0 hs1 hf0 hf1 ht0 ht1
  refine ⟨h, ?_, ?_, by decide!, by decide!, by decide!, by decide!, by decide!⟩
  · rw [h]; show 0 ≤ (hh + tz) % 24; omega
  · rw [h]; show (hh + tz) % 24 ≤ 23; omega

/-- Witness for C8: `23:59:59.5` at offset `+2`. -/
theorem C8_convert_time_exact_witness :
    ((0 : ℤ) ≤ 23 ∧ (23 : ℤ) ≤ 23 ∧ (0 : ℤ) ≤ 59 ∧ (59 : ℤ) ≤ 59 ∧ (0 : ℚ) ≤ 1 / 2 ∧
      (1 / 2 : ℚ) < 1 ∧ (-24 : ℤ) ≤ 2 ∧ (2 : ℤ) ≤ 24) ∧
    GPS_ConvertTime 2 (10000 * (23 : ℤ) + 100 * (59 : ℤ) + (59 : ℤ) + 1 / 2) =
      ((23 + 2) % 24, 59, 59) :=
  ⟨⟨by decide, by decide, by decide, by decide, by norm_num, by norm_num, by decide, by decide⟩,
    (C8_convert_time_exact 2 23 59 59 (1 / 2) (by decide) (by decide) (by decide) (by decide)
      (by decide) (by decide) (by norm_num) (by norm_num) (by decide) (by decide)).1⟩

/-- C9: for every raw date `r = 10000*dd + 100*mm + yy` with integers `dd ≥ 0`,
`0 ≤ mm ≤ 99` and `0 ≤ yy ≤ 99`, `GPS_ConvertDate` yields `day = dd`, `month = mm` and
`year = 2000 + yy`; so the year lies in `2000..2099`, day and month are not range-checked,
and `day*10000 + month*100 + (year - 2000) = r`.  Moreover `230394` gives day 23, month 3,
year 2094. -/
theorem C9_convert_date (dd mm yy : ℤ) (hd : 0 ≤ dd) (hm0 : 0 ≤ mm) (hm1 : mm ≤ 99)
    (hy0 : 0 ≤ yy) (hy1 : yy ≤ 99) :
    GPS_ConvertDate (10000 * dd + 100 * mm + yy) = (dd, mm, 2000 + yy) ∧
    2000 ≤ (GPS_ConvertDate (10000 * dd + 100 * mm + yy)).2.2 ∧
    (GPS_ConvertDate (10000 * dd + 100 * mm + yy)).2.2 ≤ 2099 ∧
    (GPS_ConvertDate (10000 * dd + 100 * mm + yy)).1 * 10000 +
      (GPS_ConvertDate (10000 * dd + 100 * mm + yy)).2.1 * 100 +
      ((GPS_ConvertDate (10000 * dd + 100 * mm + yy)).2.2 - 2000) =
        10000 * dd + 100 * mm + yy ∧
    GPS_ConvertDate 230394 = (23, 3, 2094) := by
  have h : GPS_ConvertDate (10000 * dd + 100 * mm + yy) = (dd, mm, 2000 + yy) := by
    unfold GPS_ConvertDate
    rw [Int.tdiv_eq_ediv (by omega) (by omega), Int.tdiv_eq_ediv (by omega) (by omega),
      Int.tmod_eq_emod (by omega) (by omega), Int.tmod_eq_emod (by omega) (by omega)]
    have e1 : (10000 * dd + 100 * mm + yy) / 10000 = dd := by omega
    have e2 : (10000 * dd + 100 * mm + yy) / 100 % 100 = mm := by omega
    have e3 : (10000 * dd + 100 * mm + yy) % 100 + 2000 = 2000 + yy := by omega
    rw [e1, e2, e3]
  rw [h]
  refine ⟨rfl, ?_, ?_, ?_, by decide⟩
  · show 2000 ≤ 2000 + yy; omega
  · show 2000 + yy ≤ 2099; omega
  · show dd * 10000 + mm * 100 + (2000 + yy - 2000) = 10000 * dd + 100 * mm + yy; omega

/-- Witness for C9: day 31, month 12, year digits 99. -/
theorem C9_convert_date_witness :
    ((0 : ℤ) ≤ 31 ∧ (0 : ℤ) ≤ 12 ∧ (12 : ℤ) ≤ 99 ∧ (0 : ℤ) ≤ 99 ∧ (99 : ℤ) ≤ 99) ∧
    GPS_ConvertDate (10000 * 31 + 100 * 12 + 99) = (31, 12, 2000 + 99) :=
  ⟨by decide, (C9_convert_date 31 12 99 (by decide) (by decide) (by decide) (by decide)
    (by decide)).1⟩

/-! ## The sentence parser: C6 and C10 -/

theorem strncmp_eq_zero_iff : ∀ (n : Nat) (a b : List Byte), n ≤ b.length →
    (∀ x ∈ b.take n, x ≠ 0) → (strncmp a b n = 0 ↔ a.take n = b.take n) := by
  intro n
  induction n with
  | zero => intro a b _ _; simp [strncmp]
  | succ n ih =>
    intro a b hlen hnz
    cases b with
    | nil => simp at hlen
    | cons y b =>
      have hy : y ≠ 0 := hnz y (by simp)
      have hb : ∀ x ∈ b.take n, x ≠ 0 := fun x hx => hnz x (by simp [hx])
      have hlen' : n ≤ b.length := by simpa using hlen
      cases a with
      | nil =>
        have h0 : (0 : Byte) ≠ y := fun e => hy e.symm
        have hyv : y.val ≠ 0 := fun e => hy (Fin.ext e)
        have hyi : ((y.val : Nat) : Int) ≠ 0 := by omega
        simp [strncmp, byteAt, h0, hyi]
      | cons x a =>
        by_cases hxy : x = y
        · subst hxy
          simp [strncmp, byteAt, hy, ih a b hlen' hb]
        · have hne : (x.val : Int) - (y.val : Int) ≠ 0 := by
            have : x.val ≠ y.val := fun e => hxy (Fin.ext e)
            omega
          simp [strncmp, byteAt, hxy, hne]

theorem strncmp_prefix (a p : List Byte) (hp : p.length = 6) (hnz : ∀ x ∈ p, x ≠ 0) :
    strncmp a p 6 = 0 ↔ a.take 6 = p := by
  have h := strncmp_eq_zero_iff 6 a p (by omega) (fun x hx => hnz x (List.mem_of_mem_take hx))
  have e : p.take 6 = p := List.take_of_length_le (by omega)
  rw [h, e]

theorem strncmp_GNGGA (a : List Byte) : strncmp a (bytes "$GNGGA") 6 = 0 ↔ a.take 6 = bytes "$GNGGA" :=
  strncmp_prefix a _ (by decide) (by decide!)

theorem strncmp_GNRMC (a : List Byte) : strncmp a (bytes "$GNRMC") 6 = 0 ↔ a.take 6 = bytes "$GNRMC" :=
  strncmp_prefix a _ (by decide) (by decide!)

theorem strncmp_GNVTG (a : List Byte) : strncmp a (bytes "$GNVTG") 6 = 0 ↔ a.take 6 = bytes "$GNVTG" :=
  strncmp_prefix a _ (by decide) (by decide!)

theorem sscanf_ret_le_length (s : List Byte) (fmt : String) :
    (sscanf s fmt).ret ≤ (sscanf s fmt).vals.length := by
  unfold sscanf
  dsimp only
  split_ifs <;> omega

theorem sscanf_vals_nil {s : List Byte} {fmt : String} (h : (sscanf s fmt).ret < 1) :
    (sscanf s fmt).vals = [] := by
  unfold sscanf at h ⊢
  dsimp only at h ⊢
  split_ifs at h with hc
  · exact hc.2
  · have : ((scanItems (parseFormat fmt.toList) (cstr s)).2.length : Int) < 1 := h
    exact List.length_eq_zero.mp (by omega)

theorem sscanf_ret_eq_length {s : List Byte} {fmt : String} (h : 1 ≤ (sscanf s fmt).ret) :
    (sscanf s fmt).ret = (sscanf s fmt).vals.length := by
  unfold sscanf at h ⊢
  dsimp only at h ⊢
  split_ifs at h with hc
  · omega
  · rw [if_neg hc]

theorem storeArgs_nil (ps : List Ptr) (g : GPS_t) : storeArgs ps [] g = g := by
  cases ps <;> rfl

theorem parse_other (tz : Int) (R : GPS_t) (s : List Byte)
    (h1 : s.take 6 ≠ bytes "$GNGGA") (h2 : s.take 6 ≠ bytes "$GNRMC")
    (h3 : s.take 6 ≠ bytes "$GNVTG") : GPS_parse tz R s = R := by
  unfold GPS_parse
  rw [if_neg (mt (strncmp_GNGGA s).mp h1), if_neg (mt (strncmp_GNRMC s).mp h2),
    if_neg (mt (strncmp_GNVTG s).mp h3)]

theorem parse_GNGGA_none (tz : Int) (R : GPS_t) (s : List Byte)
    (h : (sscanf s fmt_GNGGA).ret < 1) (hp : s.take 6 = bytes "$GNGGA") :
    GPS_parse tz R s = R := by
  unfold GPS_parse
  rw [if_pos ((strncmp_GNGGA s).mpr hp)]
  dsimp only
  rw [if_neg (by omega), sscanf_vals_nil h, storeArgs_nil]

theorem parse_GNRMC_none (tz : Int) (R : GPS_t) (s : List Byte)
    (h : (sscanf s fmt_GNRMC).ret < 1) (hp : s.take 6 = bytes "$GNRMC") :
    GPS_parse tz R s = R := by
  have hne : s.take 6 ≠ bytes "$GNGGA" := by rw [hp]; decide
  unfold GPS_parse
  rw [if_neg (mt (strncmp_GNGGA s).mp hne), if_pos ((strncmp_GNRMC s).mpr hp)]
  dsimp only
  rw [if_neg (by omega), sscanf_vals_nil h, storeArgs_nil]

theorem parse_GNVTG_none (tz : Int) (R : GPS_t) (s : List Byte)
    (h : (sscanf s fmt_GNVTG).ret < 1) (hp : s.take 6 = bytes "$GNVTG") :
    GPS_parse tz R s = R := by
  have hne : s.take 6 ≠ bytes "$GNGGA" := by rw [hp]; decide
  have hne2 : s.take 6 ≠ bytes "$GNRMC" := by rw [hp]; decide
  unfold GPS_parse
  rw [if_neg (mt (strncmp_GNGGA s).mp hne), if_neg (mt (strncmp_GNRMC s).mp hne2),
    if_pos ((strncmp_GNVTG s).mpr hp)]
  dsimp only
  rw [sscanf_vals_nil h, storeArgs_nil]

/-- C6: for every record `R` and every sentence `s` whose first six characters are none of
`"$GNGGA"`, `"$GNRMC"`, `"$GNVTG"`, `GPS_parse(R, s)` leaves every field of the record equal to
its value in `R`; the same holds when the prefix is recognised but `sscanf` assigns no field
(its return value is below 1).  Instances: a `$GPGSV` and a `$GPGGA` sentence that pass
`GPS_validate`, and `"$GNGGA,,,,,,0,00,99.99,,,,,,*56"`, on which `sscanf` returns 0. -/
theorem C6_parse_leaves_record (tz : Int) (R : GPS_t) (s : List Byte) :
    (s.take 6 ≠ bytes "$GNGGA" ∧ s.take 6 ≠ bytes "$GNRMC" ∧ s.take 6 ≠ bytes "$GNVTG" →
      GPS_parse tz R s = R) ∧
    (s.take 6 = bytes "$GNGGA" ∧ (sscanf s fmt_GNGGA).ret < 1 → GPS_parse tz R s = R) ∧
    (s.take 6 = bytes "$GNRMC" ∧ (sscanf s fmt_GNRMC).ret < 1 → GPS_parse tz R s = R) ∧
    (s.take 6 = bytes "$GNVTG" ∧ (sscanf s fmt_GNVTG).ret < 1 → GPS_parse tz R s = R) ∧
    (GPS_validate
        (bytes "$GPGSV,3,1,11,03,03,111,00,04,15,270,00,06,01,010,00,13,06,292,00*74") = 1 ∧
      GPS_parse tz R
        (bytes "$GPGSV,3,1,11,03,03,111,00,04,15,270,00,06,01,010,00,13,06,292,00*74") = R) ∧
    (GPS_validate
        (bytes "$GPGGA,123519,4807.038,N,01131.000,E,1,08,0.9,545.4,M,46.9,M,,*47") = 1 ∧
      GPS_parse tz R
        (bytes "$GPGGA,123519,4807.038,N,01131.000,E,1,08,0.9,545.4,M,46.9,M,,*47") = R) ∧
    (GPS_validate (bytes "$GNGGA,,,,,,0,00,99.99,,,,,,*56") = 1 ∧
      (sscanf (bytes "$GNGGA,,,,,,0,00,99.99,,,,,,*56") fmt_GNGGA).ret = 0 ∧
      GPS_parse tz R (bytes "$GNGGA,,,,,,0,00,99.99,,,,,,*56") = R) := by
  refine ⟨fun h => parse_other tz R s h.1 h.2.1 h.2.2,
    fun h => parse_GNGGA_none tz R s h.2 h.1,
    fun h => parse_GNRMC_none tz R s h.2 h.1,
    fun h => parse_GNVTG_none tz R s h.2 h.1,
    ⟨by decide, parse_other tz R _ (by decide) (by decide) (by decide)⟩,
    ⟨by decide, parse_other tz R _ (by decide) (by decide) (by decide)⟩,
    ⟨by decide, by decide!, parse_GNGGA_none tz R _ (by decide!) (by decide)⟩⟩

theorem scanItems_kinds : ∀ (fmt : List Directive) (inp : List Byte),
    (scanItems fmt inp).2.map Val.kind <+: convKinds fmt := by
  intro fmt
  induction fmt with
  | nil => intro inp; simp [scanItems, convKinds]
  | cons d fmt ih =>
    intro inp
    cases d with
    | lit c =>
      have hk : convKinds (Directive.lit c :: fmt) = convKinds fmt := rfl
      rw [hk]
      cases inp with
      | nil => simp [scanItems]
      | cons b r =>
        simp only [scanItems]
        split
        · exact ih r
        · simp
    | float =>
      have hk : convKinds (Directive.float :: fmt) = Kind.f :: convKinds fmt := rfl
      rw [hk]
      simp only [scanItems]
      split
      · simp
      · split
        · simp
        · simp only [List.map_cons, Val.kind]
          exact (List.prefix_cons_inj _).mpr (ih _)
    | char =>
      have hk : convKinds (Directive.char :: fmt) = Kind.c :: convKinds fmt := rfl
      rw [hk]
      cases inp with
      | nil => simp [scanItems]
      | cons b r =>
        simp only [scanItems, List.map_cons, Val.kind]
        exact (List.prefix_cons_inj _).mpr (ih _)
    | int =>
      have hk : convKinds (Directive.int :: fmt) = Kind.d :: convKinds fmt := rfl
      rw [hk]
      simp only [scanItems]
      split
      · simp
      · split
        · simp
        · simp only [List.map_cons, Val.kind]
          exact (List.prefix_cons_inj _).mpr (ih _)
    | skipNot c =>
      have hk : convKinds (Directive.skipNot c :: fmt) = convKinds fmt := rfl
      rw [hk]
      cases inp with
      | nil => simp [scanItems]
      | cons b r =>
        simp only [scanItems]
        split
        · simp
        · exact ih _

theorem sscanf_kinds (s : List Byte) (fmt : String) :
    (sscanf s fmt).vals.map Val.kind <+: convKinds (parseFormat fmt.toList) :=
  scanItems_kinds _ _

theorem kinds_GNGGA : convKinds (parseFormat fmt_GNGGA.toList) =
    [Kind.f, Kind.f, Kind.c, Kind.f, Kind.c, Kind.d, Kind.d, Kind.f, Kind.f, Kind.c] := by
  decide

theorem prefix_cons_f {v : Val} {vs : List Val} {ks : List Kind}
    (h : (v :: vs).map Val.kind <+: Kind.f :: ks) :
    (∃ q, v = Val.f q) ∧ vs.map Val.kind <+: ks := by
  rw [List.map_cons, List.cons_prefix_cons] at h
  refine ⟨?_, h.2⟩
  cases v with
  | f q => exact ⟨q, rfl⟩
  | c b => exact absurd h.1 (by simp [Val.kind])
  | d n => exact absurd h.1 (by simp [Val.kind])

theorem prefix_cons_c {v : Val} {vs : List Val} {ks : List Kind}
    (h : (v :: vs).map Val.kind <+: Kind.c :: ks) :
    (∃ b, v = Val.c b) ∧ vs.map Val.kind <+: ks := by
  rw [List.map_cons, List.cons_prefix_cons] at h
  refine ⟨?_, h.2⟩
  cases v with
  | f q => exact absurd h.1 (by simp [Val.kind])
  | c b => exact ⟨b, rfl⟩
  | d n => exact absurd h.1 (by simp [Val.kind])

theorem prefix_cons_d {v : Val} {vs : List Val} {ks : List Kind}
    (h : (v :: vs).map Val.kind <+: Kind.d :: ks) :
    (∃ n, v = Val.d n) ∧ vs.map Val.kind <+: ks := by
  rw [List.map_cons, List.cons_prefix_cons] at h
  refine ⟨?_, h.2⟩
  cases v with
  | f q => exact absurd h.1 (by simp [Val.kind])
  | c b => exact absurd h.1 (by simp [Val.kind])
  | d n => exact ⟨n, rfl⟩

/-- The raw fields after the stores of the `$GNGGA` call of `sscanf`. -/
theorem storeArgs_GNGGA (R : GPS_t) (vals : List Val)
    (hk : vals.map Val.kind <+:
      [Kind.f, Kind.f, Kind.c, Kind.f, Kind.c, Kind.d, Kind.d, Kind.f, Kind.f, Kind.c]) :
    (storeArgs args_GNGGA vals R).utc_time = newFloat vals[0]? R.utc_time ∧
    (storeArgs args_GNGGA vals R).nmea_latitude = newFloat vals[1]? R.nmea_latitude ∧
    (storeArgs args_GNGGA vals R).ns = newChar vals[2]? R.ns ∧
    (storeArgs args_GNGGA vals R).nmea_longitude = newFloat vals[3]? R.nmea_longitude ∧
    (storeArgs args_GNGGA vals R).ew = newChar vals[4]? R.ew ∧
    (storeArgs args_GNGGA vals R).lock = newInt vals[5]? R.lock ∧
    (storeArgs args_GNGGA vals R).satelites = newInt vals[6]? R.satelites ∧
    (storeArgs args_GNGGA vals R).hdop = newFloat vals[7]? R.hdop ∧
    (storeArgs args_GNGGA vals R).msl_altitude = newFloat vals[8]? R.msl_altitude ∧
    (storeArgs args_GNGGA vals R).msl_units = newChar vals[9]? R.msl_units := by
  rcases vals with _ | ⟨v0, vals⟩
  · simp [storeArgs, args_GNGGA, Ptr.store, newFloat, newChar, newInt]
  obtain ⟨⟨q0, rfl⟩, hk0⟩ := prefix_cons_f hk
  clear hk
  rcases vals with _ | ⟨v1, vals⟩
  · simp [storeArgs, args_GNGGA, Ptr.store, newFloat, newChar, newInt]
  obtain ⟨⟨q1, rfl⟩, hk1⟩ := prefix_cons_f hk0
  clear hk0
  rcases vals with _ | ⟨v2, vals⟩
  · simp [storeArgs, args_GNGGA, Ptr.store, newFloat, newChar, newInt]
  obtain ⟨⟨b2, rfl⟩, hk2⟩ := prefix_cons_c hk1
  clear hk1
  rcases vals with _ | ⟨v3, vals⟩
  · simp [storeArgs, args_GNGGA, Ptr.store, newFloat, newChar, newInt]
  obtain ⟨⟨q3, rfl⟩, hk3⟩ := prefix_cons_f hk2
  clear hk2
  rcases vals with _ | ⟨v4, vals⟩
  · simp [storeArgs, args_GNGGA, Ptr.store, newFloat, newChar, newInt]
  obtain ⟨⟨b4, rfl⟩, hk4⟩ := prefix_cons_c hk3
  clear hk3
  rcases vals with _ | ⟨v5, vals⟩
  · simp [storeArgs, args_GNGGA, Ptr.store, newFloat, newChar, newInt]
  obtain ⟨⟨n5, rfl⟩, hk5⟩ := prefix_cons_d hk4
  clear hk4
  rcases vals with _ | ⟨v6, vals⟩
  · simp [storeArgs, args_GNGGA, Ptr.store, newFloat, newChar, newInt]
  obtain ⟨⟨n6, rfl⟩, hk6⟩ := prefix_cons_d hk5
  clear hk5
  rcases vals with _ | ⟨v7, vals⟩
  · simp [storeArgs, args_GNGGA, Ptr.store, newFloat, newChar, newInt]
  obtain ⟨⟨q7, rfl⟩, hk7⟩ := prefix_cons_f hk6
  clear hk6
  rcases vals with _ | ⟨v8, vals⟩
  · simp [storeArgs, args_GNGGA, Ptr.store, newFloat, newChar, newInt]
  obtain ⟨⟨q8, rfl⟩, hk8⟩ := prefix_cons_f hk7
  clear hk7
  rcases vals with _ | ⟨v9, vals⟩
  · simp [storeArgs, args_GNGGA, Ptr.store, newFloat, newChar, newInt]
  obtain ⟨⟨b9, rfl⟩, hk9⟩ := prefix_cons_c hk8
  clear hk8
  have hnil : vals = [] := by
    have := List.prefix_nil.mp hk9
    simpa using this
  subst hnil
  simp [storeArgs, args_GNGGA, Ptr.store, newFloat, newChar, newInt]

theorem parse_GNGGA_some (tz : Int) (R : GPS_t) (s : List Byte)
    (hp : s.take 6 = bytes "$GNGGA") (h1 : 1 ≤ (sscanf s fmt_GNGGA).ret) :
    GPS_parse tz R s =
      { storeArgs args_GNGGA (sscanf s fmt_GNGGA).vals R with
        dec_latitude := GPS_nmea_to_dec
          (storeArgs args_GNGGA (sscanf s fmt_GNGGA).vals R).nmea_latitude
          (storeArgs args_GNGGA (sscanf s fmt_GNGGA).vals R).ns
        dec_longitude := GPS_nmea_to_dec
          (storeArgs args_GNGGA (sscanf s fmt_GNGGA).vals R).nmea_longitude
          (storeArgs args_GNGGA (sscanf s fmt_GNGGA).vals R).ew
        hours := (GPS_ConvertTime tz (storeArgs args_GNGGA (sscanf s fmt_GNGGA).vals R).utc_time).1
        minutes :=
          (GPS_ConvertTime tz (storeArgs args_GNGGA (sscanf s fmt_GNGGA).vals R).utc_time).2.1
        seconds :=
          (GPS_ConvertTime tz (storeArgs args_GNGGA (sscanf s fmt_GNGGA).vals R).utc_time).2.2 } := by
  unfold GPS_parse
  rw [if_pos ((strncmp_GNGGA s).mpr hp)]
  dsimp only
  rw [if_pos (by omega)]

/-- C10: for every record `R` and every `$GNGGA` sentence on which `sscanf` assigns at least
the first field (UTC time), the record `R'` after `GPS_parse` satisfies
`dec_latitude = GPS_nmea_to_dec(R'.nmea_latitude, R'.ns)`,
`dec_longitude = GPS_nmea_to_dec(R'.nmea_longitude, R'.ew)` and
`(hours, minutes, seconds) = GPS_ConvertTime(R'.utc_time)`, where each of the ten raw fields
of `R'` is the newly converted value if the extraction reached it and its value in `R`
otherwise (`vals` are the values `sscanf` converted, in order; their number is its return
value and their types follow the format); when all ten fields parse, `R'` holds them in the
order UTC time, latitude, N/S, longitude, E/W, fix quality, satellite count, HDOP, altitude,
altitude unit. -/
theorem C10_GNGGA_fields (tz : Int) (R R' : GPS_t) (s : List Byte) (vals : List Val)
    (hp : s.take 6 = bytes "$GNGGA") (h1 : 1 ≤ (sscanf s fmt_GNGGA).ret)
    (hv : (sscanf s fmt_GNGGA).vals = vals) (hR : GPS_parse tz R s = R') :
    (R'.dec_latitude = GPS_nmea_to_dec R'.nmea_latitude R'.ns ∧
      R'.dec_longitude = GPS_nmea_to_dec R'.nmea_longitude R'.ew ∧
      (R'.hours, R'.minutes, R'.seconds) = GPS_ConvertTime tz R'.utc_time) ∧
    (R'.utc_time = newFloat vals[0]? R.utc_time ∧
      R'.nmea_latitude = newFloat vals[1]? R.nmea_latitude ∧
      R'.ns = newChar vals[2]? R.ns ∧
      R'.nmea_longitude = newFloat vals[3]? R.nmea_longitude ∧
      R'.ew = newChar vals[4]? R.ew ∧
      R'.lock = newInt vals[5]? R.lock ∧
      R'.satelites = newInt vals[6]? R.satelites ∧
      R'.hdop = newFloat vals[7]? R.hdop ∧
      R'.msl_altitude = newFloat vals[8]? R.msl_altitude ∧
      R'.msl_units = newChar vals[9]? R.msl_units) ∧
    ((sscanf s fmt_GNGGA).ret = vals.length ∧
      vals.map Val.kind =
        [Kind.f, Kind.f, Kind.c, Kind.f, Kind.c, Kind.d, Kind.d, Kind.f, Kind.f, Kind.c].take
          vals.length) ∧
    (∀ t la ns lo ew lock sat hdop alt unit,
      vals = [Val.f t, Val.f la, Val.c ns, Val.f lo, Val.c ew, Val.d lock, Val.d sat,
        Val.f hdop, Val.f alt, Val.c unit] →
      R'.utc_time = t ∧ R'.nmea_latitude = la ∧ R'.ns = ns ∧ R'.nmea_longitude = lo ∧
      R'.ew = ew ∧ R'.lock = lock ∧ R'.satelites = sat ∧ R'.hdop = hdop ∧
      R'.msl_altitude = alt ∧ R'.msl_units = unit) := by
  have hk : vals.map Val.kind <+:
      [Kind.f, Kind.f, Kind.c, Kind.f, Kind.c, Kind.d, Kind.d, Kind.f, Kind.f, Kind.c] := by
    rw [← hv, ← kinds_GNGGA]
    exact sscanf_kinds s fmt_GNGGA
  have hst := storeArgs_GNGGA R vals hk
  have hlen := sscanf_ret_eq_length h1
  rw [hv] at hlen
  have hraw : R'.utc_time = newFloat vals[0]? R.utc_time ∧
      R'.nmea_latitude = newFloat vals[1]? R.nmea_latitude ∧
      R'.ns = newChar vals[2]? R.ns ∧
      R'.nmea_longitude = newFloat vals[3]? R.nmea_longitude ∧
      R'.ew = newChar vals[4]? R.ew ∧
      R'.lock = newInt vals[5]? R.lock ∧
      R'.satelites = newInt vals[6]? R.satelites ∧
      R'.hdop = newFloat vals[7]? R.hdop ∧
      R'.msl_altitude = newFloat vals[8]? R.msl_altitude ∧
      R'.msl_units = newChar vals[9]? R.msl_units := by
    rw [← hR, parse_GNGGA_some tz R s hp h1, hv]
    exact hst
  refine ⟨?_, hraw, ⟨hlen, ?_⟩, ?_⟩
  · rw [← hR, parse_GNGGA_some tz R s hp h1]
    exact ⟨rfl, rfl, rfl⟩
  · have := List.prefix_iff_eq_take.mp hk
    rw [List.length_map] at this
    exact this
  · intro t la ns lo ew lock sat hdop alt unit he
    subst he
    simpa [newFloat, newChar, newInt] using hraw

/-- Witness for C10: the ten fields of a `$GNGGA` sentence, parsed into the zero record. -/
theorem C10_GNGGA_fields_witness :
    (bytes "$GNGGA,123519,4807.038,N,01131.000,E,1,08,0.9,545.4,M*01").take 6 = bytes "$GNGGA" ∧
    1 ≤ (sscanf (bytes "$GNGGA,123519,4807.038,N,01131.000,E,1,08,0.9,545.4,M*01")
      fmt_GNGGA).ret ∧
    (sscanf (bytes "$GNGGA,123519,4807.038,N,01131.000,E,1,08,0.9,545.4,M*01") fmt_GNGGA).vals =
      [Val.f 123519, Val.f 4807.038, Val.c 78, Val.f 1131, Val.c 69, Val.d 1, Val.d 8,
        Val.f 0.9, Val.f 545.4, Val.c 77] ∧
    (GPS_parse 1 GPS_zero
        (bytes "$GNGGA,123519,4807.038,N,01131.000,E,1,08,0.9,545.4,M*01")).utc_time = 123519 ∧
    (GPS_parse 1 GPS_zero
        (bytes "$GNGGA,123519,4807.038,N,01131.000,E,1,08,0.9,545.4,M*01")).msl_units = 77 :=
  have h := (C10_GNGGA_fields 1 GPS_zero _
    (bytes "$GNGGA,123519,4807.038,N,01131.000,E,1,08,0.9,545.4,M*01")
    [Val.f 123519, Val.f 4807.038, Val.c 78, Val.f 1131, Val.c 69, Val.d 1, Val.d 8,
      Val.f 0.9, Val.f 545.4, Val.c 77] (by decide!) (by decide!) (by decide!) rfl).2.2.2
    123519 4807.038 78 1131 69 1 8 0.9 545.4 77 rfl
  ⟨by decide!, by decide!, by decide!, h.1, h.2.2.2.2.2.2.2.2.2⟩

/-! ## C5: the end-to-end example -/

theorem reset_eq (R : GPS_t) : State.reset R =
    { rx_buffer := [] ++ List.replicate (GPSBUFSIZE - ([] : List Byte).length) 0,
      rx_index := ([] : List Byte).length, GPS := R } := rfl

/-- The buffer after the bytes of a line without `'\n'` that fits, from the reset state. -/
theorem feed_unfinished (tz : Int) (mem : Nat → List Byte) (R : GPS_t) (l : List Byte)
    (hnl : (10 : Byte) ∉ l) (hlen : l.length ≤ 128) :
    feed tz mem (State.reset R) l =
      { rx_buffer := l ++ List.replicate (128 - l.length) 0, rx_index := l.length, GPS := R } := by
  have h := feed_accumulate tz R l hnl mem [] (by simpa [GPSBUFSIZE] using hlen)
  rw [reset_eq, h]
  simp [GPSBUFSIZE]

/-- C5, as stated, fails: the payload of
`"$GNGGA,123519,4807.038,N,01131.000,E,1,08,0.9,545.4,M*47"` has XOR `0x01`, not `0x47`, so
`GPS_validate` returns 0 on the accumulated line (56 bytes followed by zeros), and after the
57 bytes the assembler is reset with the zero record untouched: `utc_time` is 0, not
123519.  This holds whatever memory follows the buffer. -/
theorem C5_counterexample :
    line_GNGGA_47.length = 56 ∧ checksum line_GNGGA_47 53 = 1 ∧
    GPS_validate line_GNGGA_47 = 0 ∧
    ∀ mem : Nat → List Byte,
      (feed GPS_TIMEZONE_OFFSET mem (State.reset GPS_zero) line_GNGGA_47).rx_buffer =
        line_GNGGA_47 ++ List.replicate 72 0 ∧
      GPS_validate
        (feed GPS_TIMEZONE_OFFSET mem (State.reset GPS_zero) line_GNGGA_47).rx_buffer = 0 ∧
      feed GPS_TIMEZONE_OFFSET mem (State.reset GPS_zero)
        (bytes "$GNGGA,123519,4807.038,N,01131.000,E,1,08,0.9,545.4,M*47\n") =
          State.reset GPS_zero ∧
      (feed GPS_TIMEZONE_OFFSET mem (State.reset GPS_zero)
        (bytes "$GNGGA,123519,4807.038,N,01131.000,E,1,08,0.9,545.4,M*47\n")).GPS.utc_time ≠
          123519 := by
  refine ⟨by decide, by decide, by decide, fun mem => ?_⟩
  have hline : bytes "$GNGGA,123519,4807.038,N,01131.000,E,1,08,0.9,545.4,M*47\n" =
      line_GNGGA_47 ++ [10] := by decide
  have hnl : (10 : Byte) ∉ line_GNGGA_47 := by decide
  have hval : GPS_validate line_GNGGA_47 = 0 := by decide
  have hp := feed_unfinished GPS_TIMEZONE_OFFSET mem GPS_zero line_GNGGA_47 hnl (by decide)
  have hf := feed_line GPS_TIMEZONE_OFFSET mem GPS_zero line_GNGGA_47 hnl (by decide)
  have hs : lineStep GPS_TIMEZONE_OFFSET GPS_zero line_GNGGA_47 = GPS_zero := by
    unfold lineStep
    rw [if_neg (by rw [hval]; decide)]
  rw [hline, hf, hs, hp]
  refine ⟨rfl, ?_, rfl, by decide!⟩
  show GPS_validate (line_GNGGA_47 ++ List.replicate _ 0) = 0
  rw [GPS_validate_append_zeros]
  exact hval

/-- C5, amended (checksum characters `01` in place of `47`): feeding the 57 bytes of
`"$GNGGA,123519,4807.038,N,01131.000,E,1,08,0.9,545.4,M*01\n"` one at a time to
`GPS_UART_CallBack`, from the reset assembler and the zero record: `GPS_validate` returns 1
on the accumulated line, and afterwards the assembler is reset and the record holds
`utc_time = 123519`, `nmea_latitude = 4807.038` with `ns = 'N'`,
`nmea_longitude = 1131.000` with `ew = 'E'`, `dec_latitude = 48.1173`,
`dec_longitude = 11 + 31/60` (exact arithmetic), and hours:minutes:seconds equal to
`GPS_ConvertTime` of 123519: `12 + tz` modulo 24, 35, 19 for an offset `tz` in `-24..24`,
that is 13:35:19 for `GPS_TIMEZONE_OFFSET = 1`.  This holds whatever memory follows the
buffer. -/
theorem C5_end_to_end (tz : Int) (mem : Nat → List Byte) (after : List Byte) :
    GPS_validate (feed tz mem (State.reset GPS_zero) line_GNGGA_01).rx_buffer = 1 ∧
    GPS_validate ((feed tz mem (State.reset GPS_zero) line_GNGGA_01).rx_buffer ++ after) = 1 ∧
    (feed tz mem (State.reset GPS_zero)
      (bytes "$GNGGA,123519,4807.038,N,01131.000,E,1,08,0.9,545.4,M*01\n")).rx_index = 0 ∧
    (feed tz mem (State.reset GPS_zero)
      (bytes "$GNGGA,123519,4807.038,N,01131.000,E,1,08,0.9,545.4,M*01\n")).rx_buffer =
        List.replicate 128 0 ∧
    (feed tz mem (State.reset GPS_zero)
      (bytes "$GNGGA,123519,4807.038,N,01131.000,E,1,08,0.9,545.4,M*01\n")).GPS =
        { GPS_zero with
          utc_time := 123519, nmea_latitude := 4807.038, ns := 78,
          nmea_longitude := 1131.000, ew := 69, lock := 1, satelites := 8, hdop := 0.9,
          msl_altitude := 545.4, msl_units := 77,
          dec_latitude := 48.1173, dec_longitude := 11 + 31 / 60,
          hours := (GPS_ConvertTime tz 123519).1,
          minutes := (GPS_ConvertTime tz 123519).2.1,
          seconds := (GPS_ConvertTime tz 123519).2.2 } ∧
    (-24 ≤ tz ∧ tz ≤ 24 → GPS_ConvertTime tz 123519 = ((12 + tz) % 24, 35, 19)) ∧
    GPS_ConvertTime GPS_TIMEZONE_OFFSET 123519 = (13, 35, 19) := by
  have hline : bytes "$GNGGA,123519,4807.038,N,01131.000,E,1,08,0.9,545.4,M*01\n" =
      line_GNGGA_01 ++ [10] := by decide
  have hnl : (10 : Byte) ∉ line_GNGGA_01 := by decide
  have hlen : line_GNGGA_01.length < GPSBUFSIZE := by decide
  have hval : GPS_validate line_GNGGA_01 = 1 := by decide
  have hacc := feed_unfinished tz mem GPS_zero line_GNGGA_01 hnl (by decide)
  have hfeed := feed_line tz mem GPS_zero line_GNGGA_01 hnl hlen
  rw [hline, hfeed, hacc]
  refine ⟨?_, ?_, rfl, rfl, ?_, ?_, by decide!⟩
  · show GPS_validate (line_GNGGA_01 ++ List.replicate _ 0) = 1
    rw [GPS_validate_append_zeros]
    exact hval
  · show GPS_validate ((line_GNGGA_01 ++ List.replicate (128 - line_GNGGA_01.length) 0) ++
      after) = 1
    rw [(terminated_buffer tz line_GNGGA_01 after (by decide)).2.1]
    exact hval
  · show lineStep tz GPS_zero line_GNGGA_01 = _
    unfold lineStep
    rw [if_pos hval, parse_GNGGA_some tz GPS_zero line_GNGGA_01 (by decide) (by decide!)]
    have hs : storeArgs args_GNGGA (sscanf line_GNGGA_01 fmt_GNGGA).vals GPS_zero =
        { GPS_zero with
          utc_time := 123519, nmea_latitude := 4807.038, ns := 78,
          nmea_longitude := 1131.000, ew := 69, lock := 1, satelites := 8, hdop := 0.9,
          msl_altitude := 545.4, msl_units := 77 } := by decide!
    rw [hs]
    have h1 : GPS_nmea_to_dec 4807.038 78 = 48.1173 := by decide!
    have h2 : GPS_nmea_to_dec 1131.000 69 = 11 + 31 / 60 := by decide!
    simp only [h1, h2]
  · rintro ⟨h1, h2⟩
    have := convertTime_eq tz 12 35 19 0 (by decide) (by decide) (by decide) (by decide)
      (by decide) (by decide) (by norm_num) (by norm_num) h1 h2
    have e : (10000 * ((12 : ℤ) : ℚ) + 100 * ((35 : ℤ) : ℚ) + ((19 : ℤ) : ℚ) + 0) = 123519 := by
      norm_num
    rw [e] at this
    exact this

/-! ## Frame of the stores: C14 -/

/-- A projection that no pointer of the list writes is unchanged by the stores. -/
theorem storeArgs_frame {α : Type} (proj : GPS_t → α) :
    ∀ (ps : List Ptr), (∀ p ∈ ps, ∀ v g, proj (Ptr.store p v g) = proj g) →
      ∀ (vals : List Val) (g : GPS_t), proj (storeArgs ps vals g) = proj g := by
  intro ps
  induction ps with
  | nil => intro _ vals g; cases vals <;> rfl
  | cons p ps ih =>
    intro h vals g
    cases vals with
    | nil => rfl
    | cons v vs =>
      have h1 := ih (fun p' hp' => h p' (List.mem_cons_of_mem _ hp')) vs (Ptr.store p v g)
      have h2 := h p (List.mem_cons_self _ _) v g
      simp only [storeArgs]
      rw [h1, h2]

/-- Every pointer argument of the `$GNGGA` call writes a field of the `$GNGGA` set. -/
theorem storeArgs_GNGGA_mask (R : GPS_t) (vals : List Val) (g : GPS_t) :
    restore_GNGGA R (storeArgs args_GNGGA vals g) = restore_GNGGA R g := by
  refine storeArgs_frame (restore_GNGGA R) args_GNGGA ?_ vals g
  intro p hp v x
  simp only [args_GNGGA, List.mem_cons, List.mem_singleton, List.not_mem_nil, or_false] at hp
  rcases hp with rfl | rfl | rfl | rfl | rfl | rfl | rfl | rfl | rfl | rfl <;> cases v <;> rfl

/-- Every pointer argument of the `$GNRMC` call writes a field of the `$GNRMC` set. -/
theorem storeArgs_GNRMC_mask (R : GPS_t) (vals : List Val) (g : GPS_t) :
    restore_GNRMC R (storeArgs args_GNRMC vals g) = restore_GNRMC R g := by
  refine storeArgs_frame (restore_GNRMC R) args_GNRMC ?_ vals g
  intro p hp v x
  simp only [args_GNRMC, List.mem_cons, List.mem_singleton, List.not_mem_nil, or_false] at hp
  rcases hp with rfl | rfl | rfl | rfl | rfl | rfl | rfl | rfl | rfl <;> cases v <;> rfl

/-- Every pointer argument of the `$GNVTG` call writes a field of the `$GNVTG` set. -/
theorem storeArgs_GNVTG_mask (R : GPS_t) (vals : List Val) (g : GPS_t) :
    restore_GNVTG R (storeArgs args_GNVTG vals g) = restore_GNVTG R g := by
  refine storeArgs_frame (restore_GNVTG R) args_GNVTG ?_ vals g
  intro p hp v x
  simp only [args_GNVTG, List.mem_cons, List.mem_singleton, List.not_mem_nil, or_false] at hp
  rcases hp with rfl | rfl | rfl | rfl | rfl | rfl | rfl <;> cases v <;> rfl

theorem take6_GNRMC_ne_GNGGA {s : List Byte} (hp : s.take 6 = bytes "$GNRMC") :
    s.take 6 ≠ bytes "$GNGGA" := by
  rw [hp]; decide

theorem take6_GNVTG_ne_GNGGA {s : List Byte} (hp : s.take 6 = bytes "$GNVTG") :
    s.take 6 ≠ bytes "$GNGGA" := by
  rw [hp]; decide

theorem take6_GNVTG_ne_GNRMC {s : List Byte} (hp : s.take 6 = bytes "$GNVTG") :
    s.take 6 ≠ bytes "$GNRMC" := by
  rw [hp]; decide

theorem parse_GNRMC_some (tz : Int) (R : GPS_t) (s : List Byte)
    (hp : s.take 6 = bytes "$GNRMC") (h1 : 1 ≤ (sscanf s fmt_GNRMC).ret) :
    GPS_parse tz R s =
      { storeArgs args_GNRMC (sscanf s fmt_GNRMC).vals R with
        hours := (GPS_ConvertTime tz (storeArgs args_GNRMC (sscanf s fmt_GNRMC).vals R).utc_time).1
        minutes :=
          (GPS_ConvertTime tz (storeArgs args_GNRMC (sscanf s fmt_GNRMC).vals R).utc_time).2.1
        seconds :=
          (GPS_ConvertTime tz (storeArgs args_GNRMC (sscanf s fmt_GNRMC).vals R).utc_time).2.2
        day := (GPS_ConvertDate (storeArgs args_GNRMC (sscanf s fmt_GNRMC).vals R).date).1
        month := (GPS_ConvertDate (storeArgs args_GNRMC (sscanf s fmt_GNRMC).vals R).date).2.1
        year := (GPS_ConvertDate (storeArgs args_GNRMC (sscanf s fmt_GNRMC).vals R).date).2.2 } := by
  unfold GPS_parse
  rw [if_neg (mt (strncmp_GNGGA s).mp (take6_GNRMC_ne_GNGGA hp)),
    if_pos ((strncmp_GNRMC s).mpr hp)]
  dsimp only
  rw [if_pos (by omega)]

theorem parse_GNVTG_eq (tz : Int) (R : GPS_t) (s : List Byte)
    (hp : s.take 6 = bytes "$GNVTG") :
    GPS_parse tz R s = storeArgs args_GNVTG (sscanf s fmt_GNVTG).vals R := by
  unfold GPS_parse
  rw [if_neg (mt (strncmp_GNGGA s).mp (take6_GNVTG_ne_GNGGA hp)),
    if_neg (mt (strncmp_GNRMC s).mp (take6_GNVTG_ne_GNRMC hp)),
    if_pos ((strncmp_GNVTG s).mpr hp)]

/-- A `$GNGGA` parse changes at most the fields of the `$GNGGA` set. -/
theorem parse_GNGGA_mask (tz : Int) (R : GPS_t) (s : List Byte)
    (hp : s.take 6 = bytes "$GNGGA") : restore_GNGGA R (GPS_parse tz R s) = R := by
  by_cases h1 : 1 ≤ (sscanf s fmt_GNGGA).ret
  · rw [parse_GNGGA_some tz R s hp h1]
    exact storeArgs_GNGGA_mask R (sscanf s fmt_GNGGA).vals R
  · rw [parse_GNGGA_none tz R s (by omega) hp]
    rfl

/-- A `$GNRMC` parse changes at most the fields of the `$GNRMC` set. -/
theorem parse_GNRMC_mask (tz : Int) (R : GPS_t) (s : List Byte)
    (hp : s.take 6 = bytes "$GNRMC") : restore_GNRMC R (GPS_parse tz R s) = R := by
  by_cases h1 : 1 ≤ (sscanf s fmt_GNRMC).ret
  · rw [parse_GNRMC_some tz R s hp h1]
    exact storeArgs_GNRMC_mask R (sscanf s fmt_GNRMC).vals R
  · rw [parse_GNRMC_none tz R s (by omega) hp]
    rfl

/-- A `$GNVTG` parse changes at most the fields of the `$GNVTG` set. -/
theorem parse_GNVTG_mask (tz : Int) (R : GPS_t) (s : List Byte)
    (hp : s.take 6 = bytes "$GNVTG") : restore_GNVTG R (GPS_parse tz R s) = R := by
  rw [parse_GNVTG_eq tz R s hp]
  exact storeArgs_GNVTG_mask R (sscanf s fmt_GNVTG).vals R

/-- The prefix of a sentence is one of the three recognised ones, or none of them. -/
theorem prefix_cases (s : List Byte) :
    s.take 6 = bytes "$GNGGA" ∨ s.take 6 = bytes "$GNRMC" ∨ s.take 6 = bytes "$GNVTG" ∨
    (s.take 6 ≠ bytes "$GNGGA" ∧ s.take 6 ≠ bytes "$GNRMC" ∧ s.take 6 ≠ bytes "$GNVTG") := by
  by_cases h1 : s.take 6 = bytes "$GNGGA"
  · exact Or.inl h1
  · by_cases h2 : s.take 6 = bytes "$GNRMC"
    · exact Or.inr (Or.inl h2)
    · by_cases h3 : s.take 6 = bytes "$GNVTG"
      · exact Or.inr (Or.inr (Or.inl h3))
      · exact Or.inr (Or.inr (Or.inr ⟨h1, h2, h3⟩))

/-- C14: each sentence type writes only its own fields.  For every record `R` and sentence
`s`, `GPS_parse(R, s)` differs from `R` at most in `utc_time`, `nmea_latitude`, `ns`,
`nmea_longitude`, `ew`, `lock`, `satelites`, `hdop`, `msl_altitude`, `msl_units`,
`dec_latitude`, `dec_longitude`, `hours`, `minutes`, `seconds` for a `$GNGGA` sentence, at
most in `utc_time`, `rmc_status`, `nmea_latitude`, `ns`, `nmea_longitude`, `ew`, `speed_k`,
`course_d`, `date`, `hours`, `minutes`, `seconds`, `day`, `month`, `year` for a `$GNRMC`
sentence, and at most in `course_t`, `course_t_unit`, `course_m_unit`, `speed_k`,
`speed_k_unit`, `speed_km`, `speed_km_unit` for a `$GNVTG` sentence (setting these fields
back to their values in `R` gives `R`).  Consequently `$GNRMC` never refreshes
`dec_latitude`/`dec_longitude`, also when it overwrites the raw latitude (as on
`line_GNRMC`), `$GNVTG` changes no converted field, and `course_m` and `altitude_ft` are
modified by no sentence. -/
theorem C14_parse_writes_own_fields (tz : Int) (R : GPS_t) (s : List Byte) :
    (s.take 6 = bytes "$GNGGA" → restore_GNGGA R (GPS_parse tz R s) = R) ∧
    (s.take 6 = bytes "$GNRMC" → restore_GNRMC R (GPS_parse tz R s) = R) ∧
    (s.take 6 = bytes "$GNVTG" → restore_GNVTG R (GPS_parse tz R s) = R) ∧
    (s.take 6 = bytes "$GNRMC" →
      (GPS_parse tz R s).dec_latitude = R.dec_latitude ∧
      (GPS_parse tz R s).dec_longitude = R.dec_longitude) ∧
    (s.take 6 = bytes "$GNVTG" →
      (GPS_parse tz R s).dec_latitude = R.dec_latitude ∧
      (GPS_parse tz R s).dec_longitude = R.dec_longitude ∧
      (GPS_parse tz R s).hours = R.hours ∧ (GPS_parse tz R s).minutes = R.minutes ∧
      (GPS_parse tz R s).seconds = R.seconds ∧ (GPS_parse tz R s).day = R.day ∧
      (GPS_parse tz R s).month = R.month ∧ (GPS_parse tz R s).year = R.year) ∧
    ((GPS_parse tz R s).course_m = R.course_m ∧
      (GPS_parse tz R s).altitude_ft = R.altitude_ft) ∧
    ((GPS_parse tz GPS_zero line_GNRMC).nmea_latitude = 4807.038 ∧
      (GPS_parse tz GPS_zero line_GNRMC).dec_latitude = 0) := by
  refine ⟨parse_GNGGA_mask tz R s, parse_GNRMC_mask tz R s, parse_GNVTG_mask tz R s,
    ?_, ?_, ?_, ?_⟩
  · intro hp
    have h := parse_GNRMC_mask tz R s hp
    exact ⟨(congrArg GPS_t.dec_latitude h :), (congrArg GPS_t.dec_longitude h :)⟩
  · intro hp
    have h := parse_GNVTG_mask tz R s hp
    exact ⟨(congrArg GPS_t.dec_latitude h :), (congrArg GPS_t.dec_longitude h :),
      (congrArg GPS_t.hours h :), (congrArg GPS_t.minutes h :), (congrArg GPS_t.seconds h :),
      (congrArg GPS_t.day h :), (congrArg GPS_t.month h :), (congrArg GPS_t.year h :)⟩
  · rcases prefix_cases s with hp | hp | hp | hp
    · have h := parse_GNGGA_mask tz R s hp
      exact ⟨(congrArg GPS_t.course_m h :), (congrArg GPS_t.altitude_ft h :)⟩
    · have h := parse_GNRMC_mask tz R s hp
      exact ⟨(congrArg GPS_t.course_m h :), (congrArg GPS_t.altitude_ft h :)⟩
    · have h := parse_GNVTG_mask tz R s hp
      exact ⟨(congrArg GPS_t.course_m h :), (congrArg GPS_t.altitude_ft h :)⟩
    · rw [parse_other tz R s hp.1 hp.2.1 hp.2.2]
      exact ⟨rfl, rfl⟩
  · have hp : line_GNRMC.take 6 = bytes "$GNRMC" := by decide
    have h := parse_GNRMC_mask tz GPS_zero line_GNRMC hp
    refine ⟨?_, (congrArg GPS_t.dec_latitude h :)⟩
    rw [parse_GNRMC_some tz GPS_zero line_GNRMC hp (by decide!)]
    show (storeArgs args_GNRMC (sscanf line_GNRMC fmt_GNRMC).vals GPS_zero).nmea_latitude = _
    decide!

/-! ## Derived fields: C11 -/

theorem parse_derived (tz : Int) (R : GPS_t) (s : List Byte) :
    (TimeDerived tz R → TimeDerived tz (GPS_parse tz R s)) ∧
    (DateDerived R → DateDerived (GPS_parse tz R s)) ∧
    (s.take 6 = bytes "$GNGGA" ∧ 1 ≤ (sscanf s fmt_GNGGA).ret →
      TimeDerived tz (GPS_parse tz R s)) ∧
    (s.take 6 = bytes "$GNRMC" ∧ 1 ≤ (sscanf s fmt_GNRMC).ret →
      TimeDerived tz (GPS_parse tz R s) ∧ DateDerived (GPS_parse tz R s)) := by
  have hG : s.take 6 = bytes "$GNGGA" ∧ 1 ≤ (sscanf s fmt_GNGGA).ret →
      TimeDerived tz (GPS_parse tz R s) := by
    rintro ⟨hp, h1⟩
    rw [parse_GNGGA_some tz R s hp h1]
    rfl
  have hR : s.take 6 = bytes "$GNRMC" ∧ 1 ≤ (sscanf s fmt_GNRMC).ret →
      TimeDerived tz (GPS_parse tz R s) ∧ DateDerived (GPS_parse tz R s) := by
    rintro ⟨hp, h1⟩
    rw [parse_GNRMC_some tz R s hp h1]
    exact ⟨rfl, rfl⟩
  refine ⟨?_, ?_, hG, hR⟩
  · intro hT
    rcases prefix_cases s with hp | hp | hp | hp
    · by_cases h1 : 1 ≤ (sscanf s fmt_GNGGA).ret
      · exact hG ⟨hp, h1⟩
      · rw [parse_GNGGA_none tz R s (by omega) hp]; exact hT
    · by_cases h1 : 1 ≤ (sscanf s fmt_GNRMC).ret
      · exact (hR ⟨hp, h1⟩).1
      · rw [parse_GNRMC_none tz R s (by omega) hp]; exact hT
    · have h := parse_GNVTG_mask tz R s hp
      have e1 : (GPS_parse tz R s).hours = R.hours := (congrArg GPS_t.hours h :)
      have e2 : (GPS_parse tz R s).minutes = R.minutes := (congrArg GPS_t.minutes h :)
      have e3 : (GPS_parse tz R s).seconds = R.seconds := (congrArg GPS_t.seconds h :)
      have e4 : (GPS_parse tz R s).utc_time = R.utc_time := (congrArg GPS_t.utc_time h :)
      unfold TimeDerived at hT ⊢
      rw [e1, e2, e3, e4]
      exact hT
    · rw [parse_other tz R s hp.1 hp.2.1 hp.2.2]; exact hT
  · intro hD
    rcases prefix_cases s with hp | hp | hp | hp
    · have h := parse_GNGGA_mask tz R s hp
      have e1 : (GPS_parse tz R s).day = R.day := (congrArg GPS_t.day h :)
      have e2 : (GPS_parse tz R s).month = R.month := (congrArg GPS_t.month h :)
      have e3 : (GPS_parse tz R s).year = R.year := (congrArg GPS_t.year h :)
      have e4 : (GPS_parse tz R s).date = R.date := (congrArg GPS_t.date h :)
      unfold DateDerived at hD ⊢
      rw [e1, e2, e3, e4]
      exact hD
    · by_cases h1 : 1 ≤ (sscanf s fmt_GNRMC).ret
      · exact (hR ⟨hp, h1⟩).2
      · rw [parse_GNRMC_none tz R s (by omega) hp]; exact hD
    · have h := parse_GNVTG_mask tz R s hp
      have e1 : (GPS_parse tz R s).day = R.day := (congrArg GPS_t.day h :)
      have e2 : (GPS_parse tz R s).month = R.month := (congrArg GPS_t.month h :)
      have e3 : (GPS_parse tz R s).year = R.year := (congrArg GPS_t.year h :)
      have e4 : (GPS_parse tz R s).date = R.date := (congrArg GPS_t.date h :)
      unfold DateDerived at hD ⊢
      rw [e1, e2, e3, e4]
      exact hD
    · rw [parse_other tz R s hp.1 hp.2.1 hp.2.2]; exact hD

/-- C11: with `T(R)` for `(R.hours, R.minutes, R.seconds) = GPS_ConvertTime(R.utc_time)` and
`D(R)` for `(R.day, R.month, R.year) = GPS_ConvertDate(R.date)`: for every record `R` and
every sentence `s`, `T(R)` implies `T(GPS_parse(R, s))` and `D(R)` implies
`D(GPS_parse(R, s))`; moreover `T` holds after every `$GNGGA` or `$GNRMC` parse in which
`sscanf` assigns at least one field, and `D` holds after every such `$GNRMC` parse.  The same
preservation holds for every call of `GPS_UART_CallBack`, so no operation changes the
converted time or date fields independently of the stored raw values.  (The zero-initialised
record itself satisfies neither `T` at offset 1 nor `D`: they hold from the first parse
on.) -/
theorem C11_converted_fields_follow_raw (tz : Int) (R : GPS_t) (s : List Byte) :
    (TimeDerived tz R → TimeDerived tz (GPS_parse tz R s)) ∧
    (DateDerived R → DateDerived (GPS_parse tz R s)) ∧
    (s.take 6 = bytes "$GNGGA" ∧ 1 ≤ (sscanf s fmt_GNGGA).ret →
      TimeDerived tz (GPS_parse tz R s)) ∧
    (s.take 6 = bytes "$GNRMC" ∧ 1 ≤ (sscanf s fmt_GNRMC).ret →
      TimeDerived tz (GPS_parse tz R s) ∧ DateDerived (GPS_parse tz R s)) ∧
    (∀ (after : List Byte) (st : State) (b : Byte),
      (TimeDerived tz st.GPS → TimeDerived tz (GPS_UART_CallBack tz after st b).GPS) ∧
      (DateDerived st.GPS → DateDerived (GPS_UART_CallBack tz after st b).GPS)) ∧
    (¬ TimeDerived GPS_TIMEZONE_OFFSET GPS_zero ∧ ¬ DateDerived GPS_zero) := by
  obtain ⟨h1, h2, h3, h4⟩ := parse_derived tz R s
  refine ⟨h1, h2, h3, h4, ?_, ?_, ?_⟩
  · intro after st b
    unfold GPS_UART_CallBack
    split
    · exact ⟨fun h => h, fun h => h⟩
    · dsimp only
      split
      · exact ⟨(parse_derived tz st.GPS (st.rx_buffer ++ after)).1,
          (parse_derived tz st.GPS (st.rx_buffer ++ after)).2.1⟩
      · exact ⟨fun h => h, fun h => h⟩
  · unfold TimeDerived; decide!
  · unfold DateDerived; decide!

/-! ## The values stored by `sscanf`, by cases -/

theorem kinds_GNRMC : convKinds (parseFormat fmt_GNRMC.toList) =
    [Kind.f, Kind.c, Kind.f, Kind.c, Kind.f, Kind.c, Kind.f, Kind.f, Kind.d] := by
  decide

theorem kinds_GNVTG : convKinds (parseFormat fmt_GNVTG.toList) =
    [Kind.f, Kind.c, Kind.c, Kind.f, Kind.c, Kind.f, Kind.c] := by
  decide

/-- The values stored by the `GNGGA` call of `sscanf`: an initial run of its typed items. -/
theorem vals_cases_GNGGA (vals : List Val)
    (hk : vals.map Val.kind <+: [Kind.f, Kind.f, Kind.c, Kind.f, Kind.c, Kind.d, Kind.d, Kind.f, Kind.f, Kind.c]) :
    vals = [] ∨
    (∃ q0, vals = [Val.f q0]) ∨
    (∃ q0 q1, vals = [Val.f q0, Val.f q1]) ∨
    (∃ q0 q1 b2, vals = [Val.f q0, Val.f q1, Val.c b2]) ∨
    (∃ q0 q1 b2 q3, vals = [Val.f q0, Val.f q1, Val.c b2, Val.f q3]) ∨
    (∃ q0 q1 b2 q3 b4, vals = [Val.f q0, Val.f q1, Val.c b2, Val.f q3, Val.c b4]) ∨
    (∃ q0 q1 b2 q3 b4 n5, vals = [Val.f q0, Val.f q1, Val.c b2, Val.f q3, Val.c b4, Val.d n5]) ∨
    (∃ q0 q1 b2 q3 b4 n5 n6, vals = [Val.f q0, Val.f q1, Val.c b2, Val.f q3, Val.c b4, Val.d n5, Val.d n6]) ∨
    (∃ q0 q1 b2 q3 b4 n5 n6 q7, vals = [Val.f q0, Val.f q1, Val.c b2, Val.f q3, Val.c b4, Val.d n5, Val.d n6, Val.f q7]) ∨
    (∃ q0 q1 b2 q3 b4 n5 n6 q7 q8, vals = [Val.f q0, Val.f q1, Val.c b2, Val.f q3, Val.c b4, Val.d n5, Val.d n6, Val.f q7, Val.f q8]) ∨
    (∃ q0 q1 b2 q3 b4 n5 n6 q7 q8 b9, vals = [Val.f q0, Val.f q1, Val.c b2, Val.f q3, Val.c b4, Val.d n5, Val.d n6, Val.f q7, Val.f q8, Val.c b9]) := by
  rcases vals with _ | ⟨v0, vals⟩
  · exact Or.inl rfl
  obtain ⟨⟨q0, rfl⟩, hk0⟩ := prefix_cons_f hk
  clear hk
  rcases vals with _ | ⟨v1, vals⟩
  · exact Or.inr (Or.inl ⟨q0, rfl⟩)
  obtain ⟨⟨q1, rfl⟩, hk1⟩ := prefix_cons_f hk0
  clear hk0
  rcases vals with _ | ⟨v2, vals⟩
  · exact Or.inr (Or.inr (Or.inl ⟨q0, q1, rfl⟩))
  obtain ⟨⟨b2, rfl⟩, hk2⟩ := prefix_cons_c hk1
  clear hk1
  rcases vals with _ | ⟨v3, vals⟩
  · exact Or.inr (Or.inr (Or.inr (Or.inl ⟨q0, q1, b2, rfl⟩)))
  obtain ⟨⟨q3, rfl⟩, hk3⟩ := prefix_cons_f hk2
  clear hk2
  rcases vals with _ | ⟨v4, vals⟩
  · exact Or.inr (Or.inr (Or.inr (Or.inr (Or.inl ⟨q0, q1, b2, q3, rfl⟩))))
  obtain ⟨⟨b4, rfl⟩, hk4⟩ := prefix_cons_c hk3
  clear hk3
  rcases vals with _ | ⟨v5, vals⟩
  · exact Or.inr (Or.inr (Or.inr (Or.inr (Or.inr (Or.inl ⟨q0, q1, b2, q3, b4, rfl⟩)))))
  obtain ⟨⟨n5, rfl⟩, hk5⟩ := prefix_cons_d hk4
  clear hk4
  rcases vals with _ | ⟨v6, vals⟩
  · exact Or.inr (Or.inr (Or.inr (Or.inr (Or.inr (Or.inr (Or.inl ⟨q0, q1, b2, q3, b4, n5, rfl⟩))))))
  obtain ⟨⟨n6, rfl⟩, hk6⟩ := prefix_cons_d hk5
  clear hk5
  rcases vals with _ | ⟨v7, vals⟩
  · exact Or.inr (Or.inr (Or.inr (Or.inr (Or.inr (Or.inr (Or.inr (Or.inl ⟨q0, q1, b2, q3, b4, n5, n6, rfl⟩)))))))
  obtain ⟨⟨q7, rfl⟩, hk7⟩ := prefix_cons_f hk6
  clear hk6
  rcases vals with _ | ⟨v8, vals⟩
  · exact Or.inr (Or.inr (Or.inr (Or.inr (Or.inr (Or.inr (Or.inr (Or.inr (Or.inl ⟨q0, q1, b2, q3, b4, n5, n6, q7, rfl⟩))))))))
  obtain ⟨⟨q8, rfl⟩, hk8⟩ := prefix_cons_f hk7
  clear hk7
  rcases vals with _ | ⟨v9, vals⟩
  · exact Or.inr (Or.inr (Or.inr (Or.inr (Or.inr (Or.inr (Or.inr (Or.inr (Or.inr (Or.inl ⟨q0, q1, b2, q3, b4, n5, n6, q7, q8, rfl⟩)))))))))
  obtain ⟨⟨b9, rfl⟩, hk9⟩ := prefix_cons_c hk8
  clear hk8
  have hnil : vals = [] := by
    have := List.prefix_nil.mp hk9
    simpa using this
  subst hnil
  exact Or.inr (Or.inr (Or.inr (Or.inr (Or.inr (Or.inr (Or.inr (Or.inr (Or.inr (Or.inr (⟨q0, q1, b2, q3, b4, n5, n6, q7, q8, b9, rfl⟩))))))))))

/-- The values stored by the `GNRMC` call of `sscanf`: an initial run of its typed items. -/
theorem vals_cases_GNRMC (vals : List Val)
    (hk : vals.map Val.kind <+: [Kind.f, Kind.c, Kind.f, Kind.c, Kind.f, Kind.c, Kind.f, Kind.f, Kind.d]) :
    vals = [] ∨
    (∃ q0, vals = [Val.f q0]) ∨
    (∃ q0 b1, vals = [Val.f q0, Val.c b1]) ∨
    (∃ q0 b1 q2, vals = [Val.f q0, Val.c b1, Val.f q2]) ∨
    (∃ q0 b1 q2 b3, vals = [Val.f q0, Val.c b1, Val.f q2, Val.c b3]) ∨
    (∃ q0 b1 q2 b3 q4, vals = [Val.f q0, Val.c b1, Val.f q2, Val.c b3, Val.f q4]) ∨
    (∃ q0 b1 q2 b3 q4 b5, vals = [Val.f q0, Val.c b1, Val.f q2, Val.c b3, Val.f q4, Val.c b5]) ∨
    (∃ q0 b1 q2 b3 q4 b5 q6, vals = [Val.f q0, Val.c b1, Val.f q2, Val.c b3, Val.f q4, Val.c b5, Val.f q6]) ∨
    (∃ q0 b1 q2 b3 q4 b5 q6 q7, vals = [Val.f q0, Val.c b1, Val.f q2, Val.c b3, Val.f q4, Val.c b5, Val.f q6, Val.f q7]) ∨
    (∃ q0 b1 q2 b3 q4 b5 q6 q7 n8, vals = [Val.f q0, Val.c b1, Val.f q2, Val.c b3, Val.f q4, Val.c b5, Val.f q6, Val.f q7, Val.d n8]) := by
  rcases vals with _ | ⟨v0, vals⟩
  · exact Or.inl rfl
  obtain ⟨⟨q0, rfl⟩, hk0⟩ := prefix_cons_f hk
  clear hk
  rcases vals with _ | ⟨v1, vals⟩
  · exact Or.inr (Or.inl ⟨q0, rfl⟩)
  obtain ⟨⟨b1, rfl⟩, hk1⟩ := prefix_cons_c hk0
  clear hk0
  rcases vals with _ | ⟨v2, vals⟩
  · exact Or.inr (Or.inr (Or.inl ⟨q0, b1, rfl⟩))
  obtain ⟨⟨q2, rfl⟩, hk2⟩ := prefix_cons_f hk1
  clear hk1
  rcases vals with _ | ⟨v3, vals⟩
  · exact Or.inr (Or.inr (Or.inr (Or.inl ⟨q0, b1, q2, rfl⟩)))
  obtain ⟨⟨b3, rfl⟩, hk3⟩ := prefix_cons_c hk2
  clear hk2
  rcases vals with _ | ⟨v4, vals⟩
  · exact Or.inr (Or.inr (Or.inr (Or.inr (Or.inl ⟨q0, b1, q2, b3, rfl⟩))))
  obtain ⟨⟨q4, rfl⟩, hk4⟩ := prefix_cons_f hk3
  clear hk3
  rcases vals with _ | ⟨v5, vals⟩
  · exact Or.inr (Or.inr (Or.inr (Or.inr (Or.inr (Or.inl ⟨q0, b1, q2, b3, q4, rfl⟩)))))
  obtain ⟨⟨b5, rfl⟩, hk5⟩ := prefix_cons_c hk4
  clear hk4
  rcases vals with _ | ⟨v6, vals⟩
  · exact Or.inr (Or.inr (Or.inr (Or.inr (Or.inr (Or.inr (Or.inl ⟨q0, b1, q2, b3, q4, b5, rfl⟩))))))
  obtain ⟨⟨q6, rfl⟩, hk6⟩ := prefix_cons_f hk5
  clear hk5
  rcases vals with _ | ⟨v7, vals⟩
  · exact Or.inr (Or.inr (Or.inr (Or.inr (Or.inr (Or.inr (Or.inr (Or.inl ⟨q0, b1, q2, b3, q4, b5, q6, rfl⟩)))))))
  obtain ⟨⟨q7, rfl⟩, hk7⟩ := prefix_cons_f hk6
  clear hk6
  rcases vals with _ | ⟨v8, vals⟩
  · exact Or.inr (Or.inr (Or.inr (Or.inr (Or.inr (Or.inr (Or.inr (Or.inr (Or.inl ⟨q0, b1, q2, b3, q4, b5, q6, q7, rfl⟩))))))))
  obtain ⟨⟨n8, rfl⟩, hk8⟩ := prefix_cons_d hk7
  clear hk7
  have hnil : vals = [] := by
    have := List.prefix_nil.mp hk8
    simpa using this
  subst hnil
  exact Or.inr (Or.inr (Or.inr (Or.inr (Or.inr (Or.inr (Or.inr (Or.inr (Or.inr (⟨q0, b1, q2, b3, q4, b5, q6, q7, n8, rfl⟩)))))))))

/-- The values stored by the `GNVTG` call of `sscanf`: an initial run of its typed items. -/
theorem vals_cases_GNVTG (vals : List Val)
    (hk : vals.map Val.kind <+: [Kind.f, Kind.c, Kind.c, Kind.f, Kind.c, Kind.f, Kind.c]) :
    vals = [] ∨
    (∃ q0, vals = [Val.f q0]) ∨
    (∃ q0 b1, vals = [Val.f q0, Val.c b1]) ∨
    (∃ q0 b1 b2, vals = [Val.f q0, Val.c b1, Val.c b2]) ∨
    (∃ q0 b1 b2 q3, vals = [Val.f q0, Val.c b1, Val.c b2, Val.f q3]) ∨
    (∃ q0 b1 b2 q3 b4, vals = [Val.f q0, Val.c b1, Val.c b2, Val.f q3, Val.c b4]) ∨
    (∃ q0 b1 b2 q3 b4 q5, vals = [Val.f q0, Val.c b1, Val.c b2, Val.f q3, Val.c b4, Val.f q5]) ∨
    (∃ q0 b1 b2 q3 b4 q5 b6, vals = [Val.f q0, Val.c b1, Val.c b2, Val.f q3, Val.c b4, Val.f q5, Val.c b6]) := by
  rcases vals with _ | ⟨v0, vals⟩
  · exact Or.inl rfl
  obtain ⟨⟨q0, rfl⟩, hk0⟩ := prefix_cons_f hk
  clear hk
  rcases vals with _ | ⟨v1, vals⟩
  · exact Or.inr (Or.inl ⟨q0, rfl⟩)
  obtain ⟨⟨b1, rfl⟩, hk1⟩ := prefix_cons_c hk0
  clear hk0
  rcases vals with _ | ⟨v2, vals⟩
  · exact Or.inr (Or.inr (Or.inl ⟨q0, b1, rfl⟩))
  obtain ⟨⟨b2, rfl⟩, hk2⟩ := prefix_cons_c hk1
  clear hk1
  rcases vals with _ | ⟨v3, vals⟩
  · exact Or.inr (Or.inr (Or.inr (Or.inl ⟨q0, b1, b2, rfl⟩)))
  obtain ⟨⟨q3, rfl⟩, hk3⟩ := prefix_cons_f hk2
  clear hk2
  rcases vals with _ | ⟨v4, vals⟩
  · exact Or.inr (Or.inr (Or.inr (Or.inr (Or.inl ⟨q0, b1, b2, q3, rfl⟩))))
  obtain ⟨⟨b4, rfl⟩, hk4⟩ := prefix_cons_c hk3
  clear hk3
  rcases vals with _ | ⟨v5, vals⟩
  · exact Or.inr (Or.inr (Or.inr (Or.inr (Or.inr (Or.inl ⟨q0, b1, b2, q3, b4, rfl⟩)))))
  obtain ⟨⟨q5, rfl⟩, hk5⟩ := prefix_cons_f hk4
  clear hk4
  rcases vals with _ | ⟨v6, vals⟩
  · exact Or.inr (Or.inr (Or.inr (Or.inr (Or.inr (Or.inr (Or.inl ⟨q0, b1, b2, q3, b4, q5, rfl⟩))))))
  obtain ⟨⟨b6, rfl⟩, hk6⟩ := prefix_cons_c hk5
  clear hk5
  have hnil : vals = [] := by
    have := List.prefix_nil.mp hk6
    simpa using this
  subst hnil
  exact Or.inr (Or.inr (Or.inr (Or.inr (Or.inr (Or.inr (Or.inr (⟨q0, b1, b2, q3, b4, q5, b6, rfl⟩)))))))

theorem sscanf_cases_GNGGA (s : List Byte) :
    (sscanf s fmt_GNGGA).vals.map Val.kind <+:
      [Kind.f, Kind.f, Kind.c, Kind.f, Kind.c, Kind.d, Kind.d, Kind.f, Kind.f, Kind.c] := by
  rw [← kinds_GNGGA]
  exact sscanf_kinds s fmt_GNGGA

theorem sscanf_cases_GNRMC (s : List Byte) :
    (sscanf s fmt_GNRMC).vals.map Val.kind <+:
      [Kind.f, Kind.c, Kind.f, Kind.c, Kind.f, Kind.c, Kind.f, Kind.f, Kind.d] := by
  rw [← kinds_GNRMC]
  exact sscanf_kinds s fmt_GNRMC

theorem sscanf_cases_GNVTG (s : List Byte) :
    (sscanf s fmt_GNVTG).vals.map Val.kind <+:
      [Kind.f, Kind.c, Kind.c, Kind.f, Kind.c, Kind.f, Kind.c] := by
  rw [← kinds_GNVTG]
  exact sscanf_kinds s fmt_GNVTG

/-! ## Idempotence: C12 -/

theorem parse_idem (tz : Int) (R : GPS_t) (s : List Byte) :
    GPS_parse tz (GPS_parse tz R s) s = GPS_parse tz R s := by
  rcases prefix_cases s with hp | hp | hp | hp
  · by_cases h1 : 1 ≤ (sscanf s fmt_GNGGA).ret
    · rw [parse_GNGGA_some tz R s hp h1, parse_GNGGA_some tz _ s hp h1]
      have hk := sscanf_cases_GNGGA s
      generalize (sscanf s fmt_GNGGA).vals = vals at hk ⊢
      rcases vals_cases_GNGGA vals hk with rfl | ⟨q0, rfl⟩ | ⟨q0, q1, rfl⟩ |
        ⟨q0, q1, b2, rfl⟩ | ⟨q0, q1, b2, q3, rfl⟩ | ⟨q0, q1, b2, q3, b4, rfl⟩ |
        ⟨q0, q1, b2, q3, b4, n5, rfl⟩ | ⟨q0, q1, b2, q3, b4, n5, n6, rfl⟩ |
        ⟨q0, q1, b2, q3, b4, n5, n6, q7, rfl⟩ | ⟨q0, q1, b2, q3, b4, n5, n6, q7, q8, rfl⟩ |
        ⟨q0, q1, b2, q3, b4, n5, n6, q7, q8, b9, rfl⟩ <;>
      simp [storeArgs, args_GNGGA, Ptr.store]
    · rw [parse_GNGGA_none tz R s (by omega) hp, parse_GNGGA_none tz R s (by omega) hp]
  · by_cases h1 : 1 ≤ (sscanf s fmt_GNRMC).ret
    · rw [parse_GNRMC_some tz R s hp h1, parse_GNRMC_some tz _ s hp h1]
      have hk := sscanf_cases_GNRMC s
      generalize (sscanf s fmt_GNRMC).vals = vals at hk ⊢
      rcases vals_cases_GNRMC vals hk with rfl | ⟨q0, rfl⟩ | ⟨q0, b1, rfl⟩ |
        ⟨q0, b1, q2, rfl⟩ | ⟨q0, b1, q2, b3, rfl⟩ | ⟨q0, b1, q2, b3, q4, rfl⟩ |
        ⟨q0, b1, q2, b3, q4, b5, rfl⟩ | ⟨q0, b1, q2, b3, q4, b5, q6, rfl⟩ |
        ⟨q0, b1, q2, b3, q4, b5, q6, q7, rfl⟩ | ⟨q0, b1, q2, b3, q4, b5, q6, q7, n8, rfl⟩ <;>
      simp [storeArgs, args_GNRMC, Ptr.store]
    · rw [parse_GNRMC_none tz R s (by omega) hp, parse_GNRMC_none tz R s (by omega) hp]
  · rw [parse_GNVTG_eq tz R s hp, parse_GNVTG_eq tz _ s hp]
    have hk := sscanf_cases_GNVTG s
    generalize (sscanf s fmt_GNVTG).vals = vals at hk ⊢
    rcases vals_cases_GNVTG vals hk with rfl | ⟨q0, rfl⟩ | ⟨q0, b1, rfl⟩ |
      ⟨q0, b1, b2, rfl⟩ | ⟨q0, b1, b2, q3, rfl⟩ | ⟨q0, b1, b2, q3, b4, rfl⟩ |
      ⟨q0, b1, b2, q3, b4, q5, rfl⟩ | ⟨q0, b1, b2, q3, b4, q5, b6, rfl⟩ <;>
    simp [storeArgs, args_GNVTG, Ptr.store]
  · rw [parse_other tz R s hp.1 hp.2.1 hp.2.2, parse_other tz R s hp.1 hp.2.1 hp.2.2]

/-! ## Partial extraction: C13 -/

theorem storeArgs_GNRMC (R : GPS_t) (vals : List Val)
    (hk : vals.map Val.kind <+:
      [Kind.f, Kind.c, Kind.f, Kind.c, Kind.f, Kind.c, Kind.f, Kind.f, Kind.d]) :
    RawFields_GNRMC R (storeArgs args_GNRMC vals R) vals := by
  unfold RawFields_GNRMC
  rcases vals_cases_GNRMC vals hk with rfl | ⟨q0, rfl⟩ | ⟨q0, b1, rfl⟩ |
    ⟨q0, b1, q2, rfl⟩ | ⟨q0, b1, q2, b3, rfl⟩ | ⟨q0, b1, q2, b3, q4, rfl⟩ |
    ⟨q0, b1, q2, b3, q4, b5, rfl⟩ | ⟨q0, b1, q2, b3, q4, b5, q6, rfl⟩ |
    ⟨q0, b1, q2, b3, q4, b5, q6, q7, rfl⟩ | ⟨q0, b1, q2, b3, q4, b5, q6, q7, n8, rfl⟩ <;>
  simp [storeArgs, args_GNRMC, Ptr.store, newFloat, newChar, newInt]

theorem storeArgs_GNVTG (R : GPS_t) (vals : List Val)
    (hk : vals.map Val.kind <+:
      [Kind.f, Kind.c, Kind.c, Kind.f, Kind.c, Kind.f, Kind.c]) :
    RawFields_GNVTG R (storeArgs args_GNVTG vals R) vals := by
  unfold RawFields_GNVTG
  rcases vals_cases_GNVTG vals hk with rfl | ⟨q0, rfl⟩ | ⟨q0, b1, rfl⟩ |
    ⟨q0, b1, b2, rfl⟩ | ⟨q0, b1, b2, q3, rfl⟩ | ⟨q0, b1, b2, q3, b4, rfl⟩ |
    ⟨q0, b1, b2, q3, b4, q5, rfl⟩ | ⟨q0, b1, b2, q3, b4, q5, b6, rfl⟩ <;>
  simp [storeArgs, args_GNVTG, Ptr.store, newFloat, newChar, newInt]

theorem parse_GNGGA_fields (tz : Int) (R : GPS_t) (s : List Byte)
    (hp : s.take 6 = bytes "$GNGGA") (h1 : 1 ≤ (sscanf s fmt_GNGGA).ret) :
    RawFields_GNGGA R (GPS_parse tz R s) (sscanf s fmt_GNGGA).vals ∧
    PositionDerived (GPS_parse tz R s) ∧ TimeDerived tz (GPS_parse tz R s) := by
  rw [parse_GNGGA_some tz R s hp h1]
  exact ⟨storeArgs_GNGGA R _ (sscanf_cases_GNGGA s), ⟨rfl, rfl⟩, rfl⟩

theorem parse_GNRMC_fields (tz : Int) (R : GPS_t) (s : List Byte)
    (hp : s.take 6 = bytes "$GNRMC") (h1 : 1 ≤ (sscanf s fmt_GNRMC).ret) :
    RawFields_GNRMC R (GPS_parse tz R s) (sscanf s fmt_GNRMC).vals ∧
    TimeDerived tz (GPS_parse tz R s) ∧ DateDerived (GPS_parse tz R s) := by
  rw [parse_GNRMC_some tz R s hp h1]
  exact ⟨storeArgs_GNRMC R _ (sscanf_cases_GNRMC s), rfl, rfl⟩

theorem parse_GNVTG_fields (tz : Int) (R : GPS_t) (s : List Byte)
    (hp : s.take 6 = bytes "$GNVTG") :
    RawFields_GNVTG R (GPS_parse tz R s) (sscanf s fmt_GNVTG).vals := by
  rw [parse_GNVTG_eq tz R s hp]
  exact storeArgs_GNVTG R _ (sscanf_cases_GNVTG s)

/-- C13: no rollback on a mid-sentence field failure.  For every record `R` and every
recognised sentence on which `sscanf` assigns exactly the first `k ≥ 1` fields of that
type's layout (its return value is `k`, and `vals` are the `k` converted values),
`GPS_parse` leaves the k-th target field holding the k-th value for the first `k` fields
and every later target field at its value in `R`, and the conversions of that type hold on
the resulting mix of new and old raw values: position and time for `$GNGGA`, time and date
for `$GNRMC`, none for `$GNVTG`.  On `"$GNRMC,123519,V,,,,,,,230394*2D"` `sscanf` returns 2:
`utc_time` and `rmc_status` are updated, `date` keeps its old value although a date is
present in the sentence, and day/month/year are recomputed from that old date. -/
theorem C13_no_rollback (tz : Int) (R : GPS_t) (s : List Byte) (k : Nat) (hk : 1 ≤ k) :
    (s.take 6 = bytes "$GNGGA" ∧ (sscanf s fmt_GNGGA).ret = k →
      (sscanf s fmt_GNGGA).vals.length = k ∧
      RawFields_GNGGA R (GPS_parse tz R s) (sscanf s fmt_GNGGA).vals ∧
      PositionDerived (GPS_parse tz R s) ∧ TimeDerived tz (GPS_parse tz R s)) ∧
    (s.take 6 = bytes "$GNRMC" ∧ (sscanf s fmt_GNRMC).ret = k →
      (sscanf s fmt_GNRMC).vals.length = k ∧
      RawFields_GNRMC R (GPS_parse tz R s) (sscanf s fmt_GNRMC).vals ∧
      TimeDerived tz (GPS_parse tz R s) ∧ DateDerived (GPS_parse tz R s)) ∧
    (s.take 6 = bytes "$GNVTG" ∧ (sscanf s fmt_GNVTG).ret = k →
      (sscanf s fmt_GNVTG).vals.length = k ∧
      RawFields_GNVTG R (GPS_parse tz R s) (sscanf s fmt_GNVTG).vals) ∧
    ((sscanf line_GNRMC_partial fmt_GNRMC).ret = 2 ∧
      (sscanf line_GNRMC_partial fmt_GNRMC).vals = [Val.f 123519, Val.c 86] ∧
      (GPS_parse tz R line_GNRMC_partial).utc_time = 123519 ∧
      (GPS_parse tz R line_GNRMC_partial).rmc_status = 86 ∧
      (GPS_parse tz R line_GNRMC_partial).nmea_latitude = R.nmea_latitude ∧
      (GPS_parse tz R line_GNRMC_partial).date = R.date ∧
      ((GPS_parse tz R line_GNRMC_partial).day, (GPS_parse tz R line_GNRMC_partial).month,
        (GPS_parse tz R line_GNRMC_partial).year) = GPS_ConvertDate R.date) := by
  refine ⟨?_, ?_, ?_, ?_⟩
  · rintro ⟨hp, hr⟩
    have h1 : 1 ≤ (sscanf s fmt_GNGGA).ret := by omega
    have hl := sscanf_ret_eq_length h1
    exact ⟨by omega, parse_GNGGA_fields tz R s hp h1⟩
  · rintro ⟨hp, hr⟩
    have h1 : 1 ≤ (sscanf s fmt_GNRMC).ret := by omega
    have hl := sscanf_ret_eq_length h1
    exact ⟨by omega, parse_GNRMC_fields tz R s hp h1⟩
  · rintro ⟨hp, hr⟩
    have h1 : 1 ≤ (sscanf s fmt_GNVTG).ret := by omega
    have hl := sscanf_ret_eq_length h1
    exact ⟨by omega, parse_GNVTG_fields tz R s hp⟩
  · have hv : (sscanf line_GNRMC_partial fmt_GNRMC).vals = [Val.f 123519, Val.c 86] := by
      decide!
    have hr : (sscanf line_GNRMC_partial fmt_GNRMC).ret = 2 := by decide!
    obtain ⟨hraw, -, hD⟩ := parse_GNRMC_fields tz R line_GNRMC_partial (by decide)
      (by rw [hr]; decide)
    rw [hv] at hraw
    obtain ⟨e0, e1, e2, -, -, -, -, -, e8⟩ := hraw
    refine ⟨hr, hv, e0, e1, e2, e8, ?_⟩
    have hD' := hD
    unfold DateDerived at hD'
    rw [hD', e8]
    rfl

/-- Witness for C13: the partial `$GNRMC` sentence, with `k = 2`. -/
theorem C13_no_rollback_witness :
    1 ≤ 2 ∧ (sscanf line_GNRMC_partial fmt_GNRMC).ret = 2 ∧
    (GPS_parse 1 GPS_zero line_GNRMC_partial).date = GPS_zero.date :=
  ⟨by decide, by decide!,
    (C13_no_rollback 1 GPS_zero line_GNRMC_partial 2 (by decide)).2.2.2.2.2.2.2.2.1⟩

/-- C12: `GPS_parse` is idempotent per sentence: for every record `R` and every sentence
`s`, `GPS_parse(GPS_parse(R, s), s) = GPS_parse(R, s)`, as records, hence on every field:
parsing the same sentence a second time changes nothing. -/
theorem C12_parse_idempotent (tz : Int) (R : GPS_t) (s : List Byte) :
    GPS_parse tz (GPS_parse tz R s) s = GPS_parse tz R s :=
  parse_idem tz R s

/-! ## Overflow and the zero tail of the buffer: C15, C17 -/

theorem feed_full (tz : Int) (mem : Nat → List Byte) (R : GPS_t) (l : List Byte)
    (hlen : l.length = 128) (hnl : (10 : Byte) ∉ l) :
    feed tz mem (State.reset R) l = { rx_buffer := l, rx_index := 128, GPS := R } := by
  rw [feed_unfinished tz mem R l hnl (by omega)]
  simp [hlen]

/-- The flush of a full buffer: the string handed to `GPS_parse` runs into the memory after
the array. -/
theorem callback_full (tz : Int) (after : List Byte) (R : GPS_t) (l : List Byte) (b : Byte)
    (hlen : l.length = 128) :
    GPS_UART_CallBack tz after { rx_buffer := l, rx_index := 128, GPS := R } b =
      { rx_buffer := List.replicate 128 0, rx_index := 0,
        GPS := if GPS_validate l = 1 then GPS_parse tz R (l ++ after) else R } := by
  unfold GPS_UART_CallBack
  rw [if_neg (by simp [GPSBUFSIZE])]
  simp only [GPS_validate_array l after hlen]
  rcases (validate_cases l).1 with h1 | h1 <;> simp [h1, GPSBUFSIZE]

/-- C15, evaluated on the code: the overflow case hands an unterminated array to
`GPS_parse`.  For every line `l` of 128 bytes other than `'\n'` fed from the reset state,
the buffer holds `l` with `rx_index = 128`, and the next call, with any byte `b`, makes no
element store, leaves `rx_index = 0` and `rx_buffer` all zero, discards `b`, and the byte
after it is stored at index 0; `GPS_validate` reads inside the array only.  But when `l` is
accepted the record becomes `GPS_parse(R, l ++ after)`, where `after` is the memory that
follows the array: this is `GPS_parse(R, l)` when `l` holds a NUL, and not in general.  On
`line_overflow` (128 bytes, no NUL, accepted) `GPS_parse` of the 128 bytes alone leaves
`speed_km_unit` unchanged (`sscanf` returns 6, the string ends where `%c` needs a
character), while the call sets `speed_km_unit` to the first cell after the array
(`sscanf` returns 7): `0x80` when that cell is `rx_index`, holding 128. -/
theorem C15_overflow_reads_past_buffer :
    (∀ (tz : Int) (mem : Nat → List Byte) (after after' : List Byte) (R : GPS_t)
        (l : List Byte) (b : Byte), l.length = 128 → (10 : Byte) ∉ l →
      feed tz mem (State.reset R) l = { rx_buffer := l, rx_index := 128, GPS := R } ∧
      storeOf (feed tz mem (State.reset R) l) b = none ∧
      GPS_validate (l ++ after) = GPS_validate l ∧
      GPS_UART_CallBack tz after (feed tz mem (State.reset R) l) b =
        { rx_buffer := List.replicate 128 0, rx_index := 0,
          GPS := if GPS_validate l = 1 then GPS_parse tz R (l ++ after) else R } ∧
      ((0 : Byte) ∈ l → GPS_parse tz R (l ++ after) = GPS_parse tz R l) ∧
      (∀ c : Byte, c ≠ 10 →
        GPS_UART_CallBack tz after'
            (GPS_UART_CallBack tz after (feed tz mem (State.reset R) l) b) c =
          { rx_buffer := c :: List.replicate 127 0, rx_index := 1,
            GPS := if GPS_validate l = 1 then GPS_parse tz R (l ++ after) else R })) ∧
    (line_overflow.length = 128 ∧ (0 : Byte) ∉ line_overflow ∧ (10 : Byte) ∉ line_overflow ∧
      GPS_validate line_overflow = 1 ∧
      (sscanf line_overflow fmt_GNVTG).ret = 6 ∧
      (GPS_parse GPS_TIMEZONE_OFFSET GPS_zero line_overflow).speed_km_unit = 0 ∧
      (sscanf (line_overflow ++ [128]) fmt_GNVTG).ret = 7 ∧
      (GPS_UART_CallBack GPS_TIMEZONE_OFFSET [128]
        (feed GPS_TIMEZONE_OFFSET (fun _ => [128]) (State.reset GPS_zero) line_overflow)
          65).GPS.speed_km_unit = 128 ∧
      (GPS_UART_CallBack GPS_TIMEZONE_OFFSET [75]
        (feed GPS_TIMEZONE_OFFSET (fun _ => [75]) (State.reset GPS_zero) line_overflow)
          65).GPS.speed_km_unit = 75 ∧
      (GPS_UART_CallBack GPS_TIMEZONE_OFFSET [128]
        (feed GPS_TIMEZONE_OFFSET (fun _ => [128]) (State.reset GPS_zero) line_overflow)
          65).GPS ≠ GPS_parse GPS_TIMEZONE_OFFSET GPS_zero line_overflow) := by
  refine ⟨?_, by decide!, by decide!, by decide!, by decide!, by decide!, by decide!,
    by decide!, by decide!, by decide!, by decide!⟩
  intro tz mem after after' R l b hlen hnl
  have hfull := feed_full tz mem R l hlen hnl
  have hcall := callback_full tz after R l b hlen
  rw [hfull]
  refine ⟨rfl, ?_, GPS_validate_array l after hlen, hcall, ?_, ?_⟩
  · unfold storeOf
    rw [if_neg (by simp [GPSBUFSIZE])]
  · intro h0
    exact GPS_parse_cstr tz R (cstr_append_of_mem l after h0)
  · intro c hc
    rw [hcall]
    unfold GPS_UART_CallBack
    rw [if_pos ⟨hc, by simp [GPSBUFSIZE]⟩]
    rfl

/-- The buffer holds the bytes accumulated since the last flush, followed by zeros. -/
theorem feed_buffer (tz : Int) (R : GPS_t) (stream : List Byte) :
    ∀ mem : Nat → List Byte,
    ∃ acc : List Byte, acc <:+ stream ∧ (10 : Byte) ∉ acc ∧ acc.length ≤ 128 ∧
      (feed tz mem (State.reset R) stream).rx_index = acc.length ∧
      (feed tz mem (State.reset R) stream).rx_buffer =
        acc ++ List.replicate (128 - acc.length) 0 := by
  induction stream using List.reverseRecOn with
  | nil => intro mem; exact ⟨[], List.nil_suffix, by simp, by simp, rfl, rfl⟩
  | append_singleton bs b ih =>
    intro mem
    obtain ⟨acc, ⟨p, hp⟩, hnl, hlen, hidx, hbuf⟩ := ih mem
    rw [feed_append]
    show ∃ acc', _ ∧ _ ∧ _ ∧
      (GPS_UART_CallBack tz (mem (0 + bs.length)) (feed tz mem (State.reset R) bs) b).rx_index
        = _ ∧
      (GPS_UART_CallBack tz (mem (0 + bs.length)) (feed tz mem (State.reset R) bs) b).rx_buffer
        = _
    unfold GPS_UART_CallBack
    split
    · rename_i hc
      obtain ⟨hb, hlt⟩ := hc
      rw [hidx] at hlt
      unfold GPSBUFSIZE at hlt
      refine ⟨acc ++ [b], ⟨p, by rw [← hp]; simp⟩, ?_, ?_, ?_, ?_⟩
      · simp only [List.mem_append, List.mem_singleton, not_or]
        exact ⟨hnl, fun e => hb e.symm⟩
      · simp only [List.length_append, List.length_singleton]; omega
      · show ((feed tz mem (State.reset R) bs).rx_index + 1) % 256 = _
        rw [hidx]
        simp only [List.length_append, List.length_singleton]
        omega
      · show (feed tz mem (State.reset R) bs).rx_buffer.set
          (feed tz mem (State.reset R) bs).rx_index b = _
        rw [hbuf, hidx]
        have e : 128 - acc.length = (128 - (acc ++ [b]).length) + 1 := by
          simp only [List.length_append, List.length_singleton]; omega
        rw [e, set_append_zeros]
    · exact ⟨[], List.nil_suffix, by simp, by simp, rfl, rfl⟩

theorem byteAt_zero_tail (acc : List Byte) (n j : Nat) (h : acc.length ≤ j) :
    byteAt (acc ++ List.replicate n 0) j = 0 := by
  rw [byteAt_append_zeros]
  unfold byteAt
  simp [List.getElem?_eq_none h]

/-- C17: the zero tail of the buffer.  In every state reached from the initial state
(`rx_index = 0`, `rx_buffer` all zero) by any sequence of calls of `GPS_UART_CallBack`,
`rx_buffer[j] = 0` for every `j` with `rx_index ≤ j < 128`.  More precisely the buffer holds
the bytes `acc` accumulated since the last flush (a final segment of the stream without
`'\n'`, of length `rx_index`) followed by zeros only, so it contains no residue of an earlier
sentence; hence whenever `rx_index < 128` the cell right after the accumulated bytes is NUL
and `GPS_validate` and `GPS_parse` see exactly the string of the accumulated bytes, also
through the pointer to the array, whatever memory `after` follows it. -/
theorem C17_buffer_zero_tail (tz : Int) (mem : Nat → List Byte) (R : GPS_t)
    (stream : List Byte) :
    (∀ j, (feed tz mem (State.reset R) stream).rx_index ≤ j → j < 128 →
      byteAt (feed tz mem (State.reset R) stream).rx_buffer j = 0) ∧
    ∃ acc : List Byte, acc <:+ stream ∧ (10 : Byte) ∉ acc ∧
      (feed tz mem (State.reset R) stream).rx_index = acc.length ∧
      (feed tz mem (State.reset R) stream).rx_buffer =
        acc ++ List.replicate (128 - acc.length) 0 ∧
      ((feed tz mem (State.reset R) stream).rx_index < 128 →
        byteAt (feed tz mem (State.reset R) stream).rx_buffer
          (feed tz mem (State.reset R) stream).rx_index = 0 ∧
        cstr (feed tz mem (State.reset R) stream).rx_buffer = cstr acc ∧
        GPS_validate (feed tz mem (State.reset R) stream).rx_buffer = GPS_validate acc ∧
        (∀ G : GPS_t, GPS_parse tz G (feed tz mem (State.reset R) stream).rx_buffer =
          GPS_parse tz G acc) ∧
        ∀ after : List Byte,
          cstr ((feed tz mem (State.reset R) stream).rx_buffer ++ after) = cstr acc ∧
          GPS_validate ((feed tz mem (State.reset R) stream).rx_buffer ++ after) =
            GPS_validate acc ∧
          ∀ G : GPS_t,
            GPS_parse tz G ((feed tz mem (State.reset R) stream).rx_buffer ++ after) =
              GPS_parse tz G acc) := by
  obtain ⟨acc, hsuf, hnl, hlen, hidx, hbuf⟩ := feed_buffer tz R stream mem
  refine ⟨?_, acc, hsuf, hnl, hidx, hbuf, ?_⟩
  · intro j h1 _
    rw [hbuf]
    exact byteAt_zero_tail acc _ j (by omega)
  · intro hlt
    rw [hbuf, hidx]
    rw [hidx] at hlt
    exact ⟨byteAt_zero_tail acc _ _ (le_refl _), cstr_append_zeros acc _,
      GPS_validate_append_zeros acc _, fun G => GPS_parse_append_zeros tz G acc _,
      fun after => terminated_buffer tz acc after hlt⟩

/-! ## Replacing a payload byte, trailing bytes, long sentences: C18, C19, C16 -/

theorem set_delimiter {s : List Byte} {k j : Nat} {b : Byte} (hd : IsDelimiter s k)
    (hj1 : 1 ≤ j) (hjk : j < k) (hb0 : b ≠ 0) (hstar : b ≠ 42) :
    IsDelimiter (s.set j b) k := by
  have hjlen : j < s.length := byteAt_ne_zero_lt (hd.2.2 j hj1 hjk).1
  refine ⟨hd.1, ?_, ?_⟩
  · rw [byteAt_set s j b k hjlen, if_neg (by omega)]; exact hd.2.1
  · intro m hm1 hm2
    rw [byteAt_set s j b m hjlen]
    split_ifs
    · exact ⟨hb0, hstar⟩
    · exact hd.2.2 m hm1 hm2

theorem set_checksum_ne {s : List Byte} {k j : Nat} {b : Byte} (hd : IsDelimiter s k)
    (hj1 : 1 ≤ j) (hjk : j < k) (hb : b ≠ byteAt s j) :
    checksum (s.set j b) k ≠ checksum s k := by
  have hjlen : j < s.length := byteAt_ne_zero_lt (hd.2.2 j hj1 hjk).1
  have hpay : ((s.set j b).drop 1).take (k - 1) = ((s.drop 1).take (k - 1)).set (j - 1) b := by
    rw [List.drop_set, if_neg (by omega), List.set_take]
  have hlen : j - 1 < ((s.drop 1).take (k - 1)).length := by
    simp only [List.length_take, List.length_drop]
    omega
  have hget : ((s.drop 1).take (k - 1))[j - 1] = byteAt s j := by
    simp only [List.getElem_take, List.getElem_drop, byteAt, List.getD_eq_getElem?_getD]
    have : 1 + (j - 1) = j := by omega
    simp [this, List.getElem?_eq_getElem hjlen]
  unfold checksum
  rw [hpay]
  exact xorFrom_set_ne _ _ b 0 hlen (by rw [hget]; exact hb)

theorem set_nul_no_delimiter {s : List Byte} {k j : Nat} (hd : IsDelimiter s k)
    (hj1 : 1 ≤ j) (hjk : j < k) : ∀ k', ¬ IsDelimiter (s.set j 0) k' := by
  have hjlen : j < s.length := byteAt_ne_zero_lt (hd.2.2 j hj1 hjk).1
  rintro k' ⟨c1, c2, c3⟩
  rcases Nat.lt_trichotomy k' j with hlt | heq | hgt
  · rw [byteAt_set s j 0 k' hjlen, if_neg (by omega)] at c2
    exact (hd.2.2 k' c1 (by omega)).2 c2
  · rw [heq, byteAt_set s j 0 j hjlen, if_pos rfl] at c2
    exact absurd c2 (by decide)
  · have := (c3 j hj1 hgt).1
    rw [byteAt_set s j 0 j hjlen, if_pos rfl] at this
    exact this rfl

theorem hex_render_inj {m n : Nat} (hm : m < 256) (hn : n < 256)
    (h1 : hexUpper (m / 16) = hexUpper (n / 16))
    (h2 : hexUpper (m % 16) = hexUpper (n % 16)) : m = n := by
  have q1 := hexUpper_inj (by omega) (by omega) h1
  have q2 := hexUpper_inj (Nat.mod_lt _ (by omega)) (Nat.mod_lt _ (by omega)) h2
  omega

/-- C18: for every sentence `s` accepted by `GPS_validate` with its `'*'` delimiter at index
`k`, every index `j` with `1 ≤ j < k` and every byte `b` with `b ≠ s[j]` and `b ≠ '*'`,
`GPS_validate` returns 0 on `s` with `s[j]` replaced by `b`.  A non-NUL replacement keeps the
delimiter at `k` and changes the XOR of the payload, whose rendering as two upper-case
hexadecimal digits is injective on `0..255`; a NUL replacement leaves no index at which the
scan stops on a `'*'`. -/
theorem C18_payload_replacement_rejected (s : List Byte) (k j : Nat) (b : Byte)
    (hv : GPS_validate s = 1) (hd : IsDelimiter s k) (hj1 : 1 ≤ j) (hjk : j < k)
    (hb : b ≠ byteAt s j) (hstar : b ≠ 42) :
    GPS_validate (s.set j b) = 0 ∧
    (b ≠ 0 → IsDelimiter (s.set j b) k ∧ checksum (s.set j b) k ≠ checksum s k) ∧
    (b = 0 → ∀ k', ¬ IsDelimiter (s.set j b) k') ∧
    (∀ m n, m < 256 → n < 256 → hexUpper (m / 16) = hexUpper (n / 16) →
      hexUpper (m % 16) = hexUpper (n % 16) → m = n) := by
  refine ⟨validate_set_reject s k j b hv hd hj1 hjk hb hstar, ?_, ?_, ?_⟩
  · intro hb0
    exact ⟨set_delimiter hd hj1 hjk hb0 hstar, set_checksum_ne hd hj1 hjk hb⟩
  · intro hb0
    subst hb0
    exact set_nul_no_delimiter hd hj1 hjk
  · intro m n hm hn h1 h2
    exact hex_render_inj hm hn h1 h2

/-- Witness for C18: the `'1'` at index 7 of the accepted `$GNGGA` line replaced by NUL. -/
theorem C18_payload_replacement_rejected_witness :
    GPS_validate line_GNGGA_01 = 1 ∧ IsDelimiter line_GNGGA_01 53 ∧
    (0 : Byte) ≠ byteAt line_GNGGA_01 7 ∧
    GPS_validate (line_GNGGA_01.set 7 0) = 0 :=
  have hd : IsDelimiter line_GNGGA_01 53 :=
    ⟨by decide, by decide, fun j h1 h2 => by interval_cases j <;> decide⟩
  ⟨by decide, hd, by decide,
    (C18_payload_replacement_rejected line_GNGGA_01 53 7 0 (by decide) hd (by decide)
      (by decide) (by decide) (by decide)).1⟩

theorem byteAt_cons_succ (a : Byte) (l : List Byte) (i : Nat) :
    byteAt (a :: l) (i + 1) = byteAt l i := by
  simp [byteAt]

theorem byteAt_mem_or_zero (l : List Byte) (i : Nat) (h : i < l.length) : byteAt l i ∈ l := by
  unfold byteAt
  simp only [List.getD_eq_getElem?_getD, List.getElem?_eq_getElem h, Option.getD_some]
  exact List.getElem_mem h

/-- The shape of a sentence: `'$'`, a payload without NUL and `'*'`, then `'*'`. -/
theorem delimiter_of_payload (payload rest : List Byte)
    (h : ∀ x ∈ payload, x ≠ 0 ∧ x ≠ 42) :
    byteAt ((36 :: payload) ++ 42 :: rest) 0 = 36 ∧
    IsDelimiter ((36 :: payload) ++ 42 :: rest) (payload.length + 1) := by
  refine ⟨rfl, by omega, ?_, ?_⟩
  · rw [List.cons_append, byteAt_cons_succ]
    unfold byteAt
    rw [List.getD_eq_getElem?_getD, List.getElem?_append_right (le_refl _)]
    simp
  · intro j h1 h2
    obtain ⟨i, rfl⟩ : ∃ i, j = i + 1 := ⟨j - 1, by omega⟩
    rw [List.cons_append, byteAt_cons_succ, byteAt_append_left _ _ _ (by omega)]
    exact h _ (byteAt_mem_or_zero payload i (by omega))

theorem validate_append (payload : List Byte) (c1 c2 : Byte) (t : List Byte)
    (h : ∀ x ∈ payload, x ≠ 0 ∧ x ≠ 42) :
    GPS_validate ((36 :: payload) ++ [42, c1, c2] ++ t) =
      GPS_validate ((36 :: payload) ++ [42, c1, c2]) := by
  have e : (36 :: payload) ++ [42, c1, c2] ++ t = (36 :: payload) ++ 42 :: ([c1, c2] ++ t) := by
    simp
  obtain ⟨a0, ad⟩ := delimiter_of_payload payload [c1, c2] h
  obtain ⟨b0, bd⟩ := delimiter_of_payload payload ([c1, c2] ++ t) h
  rw [← e] at b0 bd
  have hlen : ((36 :: payload) ++ [42, c1, c2]).length = payload.length + 4 := by simp
  have hb : ∀ i, i < payload.length + 4 →
      byteAt ((36 :: payload) ++ [42, c1, c2] ++ t) i =
        byteAt ((36 :: payload) ++ [42, c1, c2]) i := fun i hi =>
    byteAt_append_left _ t i (by omega)
  have hck : checksum ((36 :: payload) ++ [42, c1, c2] ++ t) (payload.length + 1) =
      checksum ((36 :: payload) ++ [42, c1, c2]) (payload.length + 1) := by
    unfold checksum
    congr 1
    simp [List.take_append_eq_append_take]
  apply validate_eq_of_iff
  rw [validate_eq_one_iff, validate_eq_one_iff]
  constructor
  · rintro ⟨-, k, hk, hd, e1, e2⟩
    have := IsDelimiter_unique hd bd
    subst this
    rw [hb _ (by omega), hck] at e1 e2
    exact ⟨a0, _, hk, ad, e1, e2⟩
  · rintro ⟨-, k, hk, hd, e1, e2⟩
    have := IsDelimiter_unique hd ad
    subst this
    refine ⟨b0, _, hk, bd, ?_, ?_⟩
    · rw [hb _ (by omega), hck]; exact e1
    · rw [hb _ (by omega), hck]; exact e2

/-- C19: the result of `GPS_validate` depends only on the bytes up to and including the two
characters after the first `'*'`: for every string `s = p ++ "*" ++ [c1, c2]` where `p` is
`'$'` followed by bytes other than `'*'` and NUL, and every byte string `t`,
`GPS_validate(s ++ t) = GPS_validate(s)`.  In particular an accepted sentence stays accepted
with a carriage return (or any other trailing bytes) after it, so a sentence terminated by
CR LF passes validation; the end-to-end `$GNGGA` line followed by CR is an instance. -/
theorem C19_validate_ignores_trailing (payload : List Byte) (c1 c2 : Byte) (t : List Byte)
    (h : ∀ x ∈ payload, x ≠ 0 ∧ x ≠ 42) :
    GPS_validate ((36 :: payload) ++ [42, c1, c2] ++ t) =
      GPS_validate ((36 :: payload) ++ [42, c1, c2]) ∧
    (GPS_validate ((36 :: payload) ++ [42, c1, c2]) = 1 →
      GPS_validate ((36 :: payload) ++ [42, c1, c2] ++ [13]) = 1) ∧
    (GPS_validate line_GNGGA_01 = 1 ∧ GPS_validate (line_GNGGA_01 ++ [13]) = 1 ∧
      ∀ mem : Nat → List Byte, (feed GPS_TIMEZONE_OFFSET mem (State.reset GPS_zero)
        (line_GNGGA_01 ++ [13, 10])).GPS.utc_time = 123519) := by
  refine ⟨validate_append payload c1 c2 t h, ?_, by decide, by decide, fun mem => ?_⟩
  swap
  · have e : line_GNGGA_01 ++ [13, 10] = (line_GNGGA_01 ++ [13]) ++ [10] := by simp
    rw [e, feed_line GPS_TIMEZONE_OFFSET mem GPS_zero (line_GNGGA_01 ++ [13]) (by decide)
      (by decide)]
    show (lineStep GPS_TIMEZONE_OFFSET GPS_zero (line_GNGGA_01 ++ [13])).utc_time = 123519
    decide!
  intro hv
  rw [validate_append payload c1 c2 [13] h]
  exact hv

/-- Witness for C19: `"$A00*41"` followed by CR. -/
theorem C19_validate_ignores_trailing_witness :
    (∀ x ∈ bytes "A00", x ≠ 0 ∧ x ≠ 42) ∧
    GPS_validate ((36 :: bytes "A00") ++ [42, 52, 49] ++ [13]) =
      GPS_validate ((36 :: bytes "A00") ++ [42, 52, 49]) :=
  ⟨by decide!, (C19_validate_ignores_trailing (bytes "A00") 52 49 [13] (by decide!)).1⟩

/-- C16, evaluated on the code: `GPS_validate` returns 1 on a message longer than 75
characters.  `line_long` (`'$'`, 73 payload bytes, `"*41"`) has 77 characters, none of them
NUL, its `'*'` at index 74, and is accepted, also as the content of the receive buffer; so
is the 7-character sentence `"$A00*41"` followed by 100 further characters.  The scan bounds the index of `'*'` by 74, not the
length of the message. -/
theorem C16_long_message_accepted :
    line_long.length = 77 ∧ (cstr line_long).length = 77 ∧ IsDelimiter line_long 74 ∧
    GPS_validate line_long = 1 ∧
    (∀ (mem : Nat → List Byte) (after : List Byte), GPS_validate
      ((feed GPS_TIMEZONE_OFFSET mem (State.reset GPS_zero) line_long).rx_buffer ++ after) =
        1) ∧
    (cstr (bytes "$A00*41" ++ List.replicate 100 88)).length = 107 ∧
    GPS_validate (bytes "$A00*41" ++ List.replicate 100 88) = 1 := by
  refine ⟨by decide!, by decide!, ⟨by decide, by decide!, ?_⟩, by decide!, ?_,
    by decide!, by decide!⟩
  · intro j h1 h2
    interval_cases j <;> decide!
  · intro mem after
    rw [feed_unfinished GPS_TIMEZONE_OFFSET mem GPS_zero line_long (by decide!) (by decide!),
      (terminated_buffer GPS_TIMEZONE_OFFSET line_long after (by decide!)).2.1]
    decide!

/-! ## The date under the timezone adjustment: C20 -/

/-- C20: the timezone adjustment never touches the date.  For every record and every
`$GNRMC` sentence whose nine fields all parse (`sscanf` returns 9), the ninth value stored is
the date `n`, and after `GPS_parse` `date = n` and `(day, month, year) = GPS_ConvertDate(n)`,
whatever the UTC time field is; the date fields after the parse are the same for every
timezone offset.  On `line_GNRMC` (UTC 23:59:59 on 31-12-99) with `GPS_TIMEZONE_OFFSET = 1`
the hours field is 0 while day, month, year are 31, 12, 2099: the day is not advanced when
the hour wraps past midnight. -/
theorem C20_timezone_leaves_date (tz tz' : Int) (R : GPS_t) (s : List Byte)
    (hp : s.take 6 = bytes "$GNRMC") (h9 : (sscanf s fmt_GNRMC).ret = 9) :
    (∃ n, (sscanf s fmt_GNRMC).vals[8]? = some (Val.d n) ∧ (GPS_parse tz R s).date = n ∧
      ((GPS_parse tz R s).day, (GPS_parse tz R s).month, (GPS_parse tz R s).year) =
        GPS_ConvertDate n) ∧
    ((GPS_parse tz' R s).date = (GPS_parse tz R s).date ∧
      (GPS_parse tz' R s).day = (GPS_parse tz R s).day ∧
      (GPS_parse tz' R s).month = (GPS_parse tz R s).month ∧
      (GPS_parse tz' R s).year = (GPS_parse tz R s).year) ∧
    ((sscanf line_GNRMC fmt_GNRMC).ret = 9 ∧
      (GPS_parse GPS_TIMEZONE_OFFSET R line_GNRMC).utc_time = 235959 ∧
      (GPS_parse GPS_TIMEZONE_OFFSET R line_GNRMC).hours = 0 ∧
      (GPS_parse GPS_TIMEZONE_OFFSET R line_GNRMC).date = 311299 ∧
      ((GPS_parse GPS_TIMEZONE_OFFSET R line_GNRMC).day,
        (GPS_parse GPS_TIMEZONE_OFFSET R line_GNRMC).month,
        (GPS_parse GPS_TIMEZONE_OFFSET R line_GNRMC).year) = (31, 12, 2099)) := by
  have h1 : 1 ≤ (sscanf s fmt_GNRMC).ret := by omega
  refine ⟨?_, ?_, ?_⟩
  · obtain ⟨hraw, -, hD⟩ := parse_GNRMC_fields tz R s hp h1
    have hlen : ((sscanf s fmt_GNRMC).vals.length : Int) = 9 := by
      rw [← sscanf_ret_eq_length h1]; exact h9
    have hk := sscanf_cases_GNRMC s
    generalize (sscanf s fmt_GNRMC).vals = vals at hraw hlen hk
    rcases vals_cases_GNRMC vals hk with rfl | ⟨q0, rfl⟩ | ⟨q0, b1, rfl⟩ |
      ⟨q0, b1, q2, rfl⟩ | ⟨q0, b1, q2, b3, rfl⟩ | ⟨q0, b1, q2, b3, q4, rfl⟩ |
      ⟨q0, b1, q2, b3, q4, b5, rfl⟩ | ⟨q0, b1, q2, b3, q4, b5, q6, rfl⟩ |
      ⟨q0, b1, q2, b3, q4, b5, q6, q7, rfl⟩ | ⟨q0, b1, q2, b3, q4, b5, q6, q7, n8, rfl⟩
    all_goals first
      | (exfalso; simp at hlen; done)
      | skip
    have e8 : (GPS_parse tz R s).date = n8 := hraw.2.2.2.2.2.2.2.2
    refine ⟨n8, rfl, e8, ?_⟩
    have hD' := hD
    unfold DateDerived at hD'
    rw [hD', e8]
  · rw [parse_GNRMC_some tz R s hp h1, parse_GNRMC_some tz' R s hp h1]
    exact ⟨rfl, rfl, rfl, rfl⟩
  · have hv : (sscanf line_GNRMC fmt_GNRMC).vals =
        [Val.f 235959, Val.c 65, Val.f 4807.038, Val.c 78, Val.f 1131, Val.c 69,
          Val.f 22.4, Val.f 84.4, Val.d 311299] := by decide!
    have hr : (sscanf line_GNRMC fmt_GNRMC).ret = 9 := by decide!
    obtain ⟨hraw, hT, hD⟩ := parse_GNRMC_fields GPS_TIMEZONE_OFFSET R line_GNRMC (by decide)
      (by rw [hr]; decide)
    rw [hv] at hraw
    have e0 : (GPS_parse GPS_TIMEZONE_OFFSET R line_GNRMC).utc_time = 235959 := hraw.1
    have e8 : (GPS_parse GPS_TIMEZONE_OFFSET R line_GNRMC).date = 311299 :=
      hraw.2.2.2.2.2.2.2.2
    unfold TimeDerived at hT
    unfold DateDerived at hD
    rw [e0] at hT
    rw [e8] at hD
    have t : GPS_ConvertTime GPS_TIMEZONE_OFFSET 235959 = (0, 59, 59) := by decide!
    have d : GPS_ConvertDate 311299 = (31, 12, 2099) := by decide
    rw [t] at hT
    rw [d] at hD
    exact ⟨hr, e0, (congrArg Prod.fst hT :), e8, hD⟩

/-- Witness for C20: `line_GNRMC`, parsed into the zero record at offsets 1 and 0. -/
theorem C20_timezone_leaves_date_witness :
    line_GNRMC.take 6 = bytes "$GNRMC" ∧ (sscanf line_GNRMC fmt_GNRMC).ret = 9 ∧
    (GPS_parse 0 GPS_zero line_GNRMC).day = (GPS_parse 1 GPS_zero line_GNRMC).day :=
  ⟨by decide, by decide!,
    (C20_timezone_leaves_date 1 0 GPS_zero line_GNRMC (by decide) (by decide!)).2.1.2.1⟩

end GPS
